import Mathlib

/-!
# ScoreResponse: prompt rendering and reply parsing (main.go)

A shallow embedding of `main.go`.  The Go function `ScoreResponse` resolves a
chat model, renders `promptFmt` with the two task strings, invokes the model
and parses the first choice of the reply with `strings.TrimSpace`,
`strings.Index`, two slice expressions and `strconv.Atoi`.

Conventions of the embedding:

* a Go `string` is the list of its code points (`Str`), which stands for a
  text in valid UTF-8; positions count code points where Go counts bytes, and
  they are used only to cut the string they were found in, at the borders of
  the four markers, which are ASCII (`len` of a marker is its number of
  characters);
* a Go `int` is an `Int`; the width of the platform `int` (32 or 64) is the
  parameter `intSize`, as in `strconv`;
* a Go call returns either its pair of results or panics (`Outcome`);
* the SDK (`models.GetModel`, `CreateInput`, `Invoke`) is a `Client`: three
  functions over an explicit world state, whose calls `ScoreResponse` logs.
-/

namespace OffsiteEvals

/-- Go `string`, as the sequence of its code points. -/
abbrev Str := List Char

/-! ## Standard library: `strings` -/

/-- Go `unicode.IsSpace`: the code points with the Unicode White_Space property. -/
def isSpace (c : Char) : Bool :=
  (0x09 ≤ c.toNat && c.toNat ≤ 0x0D) || c.toNat == 0x20 || c.toNat == 0x85 || c.toNat == 0xA0 ||
  c.toNat == 0x1680 || (0x2000 ≤ c.toNat && c.toNat ≤ 0x200A) || c.toNat == 0x2028 ||
  c.toNat == 0x2029 || c.toNat == 0x202F || c.toNat == 0x205F || c.toNat == 0x3000

/-- Go `strings.TrimSpace`: all leading and all trailing white space removed. -/
def TrimSpace (s : Str) : Str :=
  (s.dropWhile isSpace).rdropWhile isSpace

/-- Scan of `strings.Index`: `i` is the position of the text still to search. -/
def indexFrom (substr : Str) : Str → Nat → Int
  | [], i => if substr.isPrefixOf [] then (i : Int) else -1
  | c :: t, i => if substr.isPrefixOf (c :: t) then (i : Int) else indexFrom substr t (i + 1)

/-- Go `strings.Index`: position of the first occurrence of `substr` in `s`, or `-1`. -/
def Index (s substr : Str) : Int :=
  indexFrom substr s 0

/-- Reasons of a run-time panic of the Go code. -/
inductive Panic where
  | sliceBounds
  | indexOutOfRange
  deriving DecidableEq, Repr

/-- Go slice expression `s[lo:hi]` on a string: the characters at positions
`lo ≤ p < hi`, when `0 ≤ lo ≤ hi ≤ len(s)`; a run-time panic otherwise. -/
def slice (s : Str) (lo hi : Int) : Except Panic Str :=
  if 0 ≤ lo ∧ lo ≤ hi ∧ hi ≤ (s.length : Int) then
    .ok ((s.drop lo.toNat).take (hi.toNat - lo.toNat))
  else
    .error .sliceBounds

/-! ## Standard library: `strconv` -/

/-- The two sentinel errors of `strconv`. -/
inductive NumErrKind where
  | ErrSyntax
  | ErrRange
  deriving DecidableEq, Repr

/-- Go `strconv.NumError`. -/
structure NumError where
  Func : Str
  Num : Str
  Err : NumErrKind
  deriving DecidableEq, Repr

/-- Value of an ASCII decimal digit, `none` for any other character. -/
def digitVal (c : Char) : Option Nat :=
  if 48 ≤ c.toNat ∧ c.toNat ≤ 57 then some (c.toNat - 48) else none

/-- Fast path loop of `strconv.Atoi`: `n = n*10 + int(ch)`, a syntax error at
the first character that is not a digit.  No overflow check: the caller has
bounded the length. -/
def atoiFast : Str → Int → Option Int
  | [], n => some n
  | ch :: rest, n =>
    match digitVal ch with
    | none => none
    | some d => atoiFast rest (n * 10 + (d : Int))

/-- The constant `cutoff` of `strconv.ParseUint` for base 10: `maxUint64/10 + 1`. -/
def cutoff10 : Nat := (2 ^ 64 - 1) / 10 + 1

/-- Loop of `strconv.ParseUint` in base 10 on `uint64` (arithmetic modulo `2^64`):
returns the value and the error, `maxVal` with `ErrRange` on overflow.  In
base 10 every character that is not a decimal digit (a letter, an underscore,
anything else) is a syntax error. -/
def parseUintLoop (maxVal : Nat) : Str → Nat → Nat × Option NumErrKind
  | [], n => (n, none)
  | c :: rest, n =>
    match digitVal c with
    | none => (0, some .ErrSyntax)
    | some d =>
      if cutoff10 ≤ n then (maxVal, some .ErrRange)
      else
        let n10 := (n * 10) % 2 ^ 64
        let n1 := (n10 + d) % 2 ^ 64
        if n1 < n10 ∨ maxVal < n1 then (maxVal, some .ErrRange)
        else parseUintLoop maxVal rest n1

/-- Go `strconv.ParseUint(s, 10, 0)`: bit size 0 stands for the platform `int` size. -/
def ParseUint (intSize : Nat) (s : Str) : Nat × Option NumErrKind :=
  if s = [] then (0, some .ErrSyntax)
  else parseUintLoop (2 ^ intSize - 1) s 0

/-- Go `strconv.ParseInt(s, 10, 0)`: value and error kind. -/
def ParseInt (intSize : Nat) (s : Str) : Int × Option NumErrKind :=
  match s with
  | [] => (0, some .ErrSyntax)
  | c :: rest =>
    let neg : Bool := c == '-'
    let s1 : Str := if c == '+' then rest else if c == '-' then rest else c :: rest
    let r := ParseUint intSize s1
    if r.2 = some .ErrSyntax then (0, some .ErrSyntax)
    else
      let cutoff : Nat := 2 ^ (intSize - 1)
      if !neg ∧ cutoff ≤ r.1 then ((cutoff : Int) - 1, some .ErrRange)
      else if neg ∧ cutoff < r.1 then (-(cutoff : Int), some .ErrRange)
      else (if neg then -(r.1 : Int) else (r.1 : Int), none)

/-- Go `strconv.Atoi` for a platform whose `int` has `intSize` bits: the value
and the error (`nil` is `none`).  The fast path is taken on the length of the
text; a text with a character outside ASCII is a syntax error on either path,
so that counting code points for bytes does not change the result. -/
def Atoi (intSize : Nat) (s : Str) : Int × Option NumError :=
  if (intSize = 32 ∧ 0 < s.length ∧ s.length < 10) ∨
     (intSize = 64 ∧ 0 < s.length ∧ s.length < 19) then
    match s with
    | [] => (0, some ⟨"Atoi".toList, s, .ErrSyntax⟩)
    | c :: rest =>
      let s1 : Str := if c == '-' ∨ c == '+' then rest else c :: rest
      if s1.length < 1 then (0, some ⟨"Atoi".toList, s, .ErrSyntax⟩)
      else
        match atoiFast s1 0 with
        | none => (0, some ⟨"Atoi".toList, s, .ErrSyntax⟩)
        | some n => (if c == '-' then -n else n, none)
  else
    let r := ParseInt intSize s
    match r.2 with
    | none => (r.1, none)
    | some k => (r.1, some ⟨"Atoi".toList, s, k⟩)

/-- Go `strconv.Itoa`: the decimal rendering of an integer. -/
def Itoa (n : Int) : Str :=
  if n < 0 then '-' :: (Nat.toDigits 10 n.natAbs) else Nat.toDigits 10 n.natAbs

/-! ## Standard library: `fmt` -/

/-- Operand list of `%!(EXTRA ...)`: every operand is a Go `string`, printed
as `string=` followed by its text, the operands separated by `, `. -/
def extraOperands : List Str → Str
  | [] => []
  | [a] => "string=".toList ++ a
  | a :: b :: rest => "string=".toList ++ a ++ ", ".toList ++ extraOperands (b :: rest)

/-- Main loop of `fmt.Sprintf` on operands that are all Go strings, for the
directives `%s`, `%v` (the operand, verbatim) and `%%`; text outside a
directive is copied.  Returns the output and the operands not consumed.
`none`: the format has a directive outside this fragment (a flag, a width, a
precision, an argument index or another verb), which this model does not
render. -/
def doPrintf : Str → List Str → Option (Str × List Str)
  | [], args => some ([], args)
  | c :: rest, args =>
    if c ≠ '%' then
      (doPrintf rest args).map fun r => (c :: r.1, r.2)
    else
      match rest, args with
      | [], _ => some ("%!(NOVERB)".toList, args)
      | v :: rest1, [] =>
        if v = '%' then (doPrintf rest1 []).map fun r => ('%' :: r.1, r.2)
        else if v = 's' ∨ v = 'v' then
          (doPrintf rest1 []).map fun r => ("%!".toList ++ v :: "(MISSING)".toList ++ r.1, r.2)
        else none
      | v :: rest1, a :: args1 =>
        if v = '%' then (doPrintf rest1 (a :: args1)).map fun r => ('%' :: r.1, r.2)
        else if v = 's' ∨ v = 'v' then
          (doPrintf rest1 args1).map fun r => (a ++ r.1, r.2)
        else none

/-- Go `fmt.Sprintf(format, args...)` with string operands: the output of the
main loop, followed by `%!(EXTRA ...)` when operands are left over. -/
def Sprintf (format : Str) (args : List Str) : Option Str :=
  (doPrintf format args).map fun r =>
    match r.2 with
    | [] => r.1
    | a :: rest => r.1 ++ "%!(EXTRA ".toList ++ extraOperands (a :: rest) ++ ")".toList

/-! ## main.go -/

/-- The constant `modelName`. -/
def modelName : Str := "evaluator".toList

/-- The struct `Evaluation`. -/
structure Evaluation where
  Score : Int
  Reasoning : Str
  deriving DecidableEq, Repr

/-- The lines of the raw string literal `promptFmt`, between its opening line
break and its closing one. -/
def promptLines : List String := [
  "# GOAL",
  "Your job is to evaluate a task carried out by an AI system powered by a large",
  "language model.",
  "",
  "You will be provided with the inputs and output of the task, as well as the evaluation criteria",
  "and scoring rubric. Your task is to evaluate the output of the AI system based on the evaluation",
  "criteria and scoring rubric provided.",
  "",
  "# INPUT",
  "Below are the inputs required for performing the task:",
  "<inputs>",
  "%s",
  "</inputs>",
  "",
  "# OUTPUT",
  "Below is the output of the task:",
  "<output>",
  "%s",
  "</output>",
  "",
  "# EVALUATION CRITERIA AND SCORING RUBRIC",
  "Here are the evaluation criteria and the rubric that you need to use for evaluating the task:",
  "<evaluation_criteria>",
  "Based on the given context, evaluate how consistent and faithful the generated response is to the",
  "context. The response should not contain any hallucinated or fabricated information that is not",
  "supported by the context.",
  "</evaluation_criteria>",
  "",
  "<scoring_rubric>",
  "- Score: 1: The response is completely inconsistent with the provided context. It contains significant amount",
  "of hallucinated or fabricated information that directly contradicts or is not supported at all by",
  "the context",
  "- Score: 2: The response is mostly inconsistent with the provided context. While it may contain some",
  "information from the context, it introduces a substantial amount of hallucinated or fabricated",
  "details that deviate from the context",
  "- Score: 3: The response is somewhat consistent with the provided context. It includes a mix of information",
  "from the context and some hallucinated or fabricated details. The fabrications are minor and do",
  "not significantly contradict the context",
  "- Score: 4: The response is mostly consistent with the provided context. The vast majority of the content is",
  "supported by the context, with only minor and inconsequential inconsistencies or fabrications, if",
  "any",
  "- Score: 5: The response is completely consistent with and faithful to the provided context. All details in",
  "the response are directly supported by the context, without any hallucinated or fabricated",
  "information",
  "</scoring_rubric>",
  "",
  "# INSTRUCTIONS FOR THE EVALUATION",
  "1. Understand the task and criteria: Familiarize yourself with the task to be evaluated.",
  "Review the evaluation criteria and scoring rubric to understand the different levels of",
  "performance and the descriptions for each score.",
  "2. Review the inputs and output: Look at the inputs provided for the task. Examine the output",
  "generated from completing the task.",
  "3. Compare output to score descriptions: Compare the output against the criteria and score",
  "descriptions in the scoring rubric. For each criterion,decide which description best matches the",
  "output.",
  "4. After comparing the output to the score descriptions, pay attention to the small details that",
  "might impact the final score that you assign. Sometimes a small difference can dictate the final",
  "score.",
  "5. Write verbal feedback justifying your evaluation that includes a detailed rationale, referring",
  "to specific aspects of the output and comparing them to the rubric.",
  "6. Assign a final score based on the scoring rubric.",
  "",
  "## FORMAT FOR THE EVALUATION",
  "- Write the verbal feedback inside <feedback> tags without any additional surrounding text.",
  "- Write the numeric score inside <score> tags, without any additional surrounding text and always",
  "after the feedback.",
  "",
  "Please accurately evaluate the task. Strictly adhere to the evaluation criteria and rubric."
]

/-- The constant `promptFmt`: a raw string literal that opens with a line break
and closes with one. -/
def promptFmt : Str :=
  ("\n" ++ "\n".intercalate promptLines ++ "\n").toList

/-- The first marker, `"<feedback>\n"`. -/
def openFeedback : Str := "<feedback>\n".toList

/-- The second marker, `"\n</feedback>"`. -/
def closeFeedback : Str := "\n</feedback>".toList

/-- The third marker, `"<score>\n"`. -/
def openScore : Str := "<score>\n".toList

/-- The fourth marker, `"\n</score>"`. -/
def closeScore : Str := "\n</score>".toList

/-- A Go `error` value as `ScoreResponse` can return it: an error of the SDK
(of an abstract type `E`), the error built by `fmt.Errorf` with its message, or
the `*strconv.NumError` of `strconv.Atoi`. -/
inductive GoError (E : Type) where
  | sdk (e : E)
  | errorf (msg : Str)
  | num (e : NumError)
  deriving DecidableEq, Repr

/-- The error `fmt.Errorf("invalid response format")`: the format has no
directive, the message is the format. -/
def invalidResponseFormat {E : Type} : GoError E :=
  .errorf "invalid response format".toList

/-- Role of a request message of the chat model. -/
inductive Role where
  | system
  | user
  deriving DecidableEq, Repr

/-- A request message: `openai.NewSystemMessage` and `openai.NewUserMessage`
build one from its text. -/
structure RequestMessage where
  role : Role
  content : Str
  deriving DecidableEq, Repr

/-- The fields of `openai.ChatModelInput` that `ScoreResponse` gives a value. -/
structure ChatModelInput where
  Messages : List RequestMessage
  Temperature : ℚ
  MaxTokens : Int
  deriving DecidableEq, Repr

/-- The message of a completion choice. -/
structure CompletionMessage where
  Role : Str
  Content : Str
  deriving DecidableEq, Repr

/-- A completion choice of the response. -/
structure Choice where
  Index : Int
  FinishReason : Str
  Message : CompletionMessage
  deriving DecidableEq, Repr

/-- The part of `openai.ChatModelOutput` that `ScoreResponse` reads. -/
structure ChatModelOutput where
  Choices : List Choice
  deriving DecidableEq, Repr

/-- The SDK as a capability interface: resolve a model by name, build an input,
invoke.  `W` is the state of the world the SDK acts on, `E` its errors, `M` its
model handles. -/
structure Client (W E M : Type) where
  GetModel : Str → W → Except E M × W
  CreateInput : M → List RequestMessage → W → Except E ChatModelInput × W
  Invoke : M → ChatModelInput → W → Except E ChatModelOutput × W

/-- A call made to the SDK, with its arguments. -/
inductive Call where
  | getModel (name : Str)
  | createInput (messages : List RequestMessage)
  | invoke (input : ChatModelInput)
  deriving DecidableEq, Repr

/-- How a call of `ScoreResponse` ends: it returns its pair of results (a `nil`
pointer or error is `none`), or it panics; `notModelled` stands for a prompt
format outside the fragment of `Sprintf` modelled here. -/
inductive Outcome (E : Type) where
  | returned (evaluation : Option Evaluation) (err : Option (GoError E))
  | panicked (p : Panic)
  | notModelled
  deriving DecidableEq, Repr

/-- A finished run: the outcome, the calls made to the SDK in order, and the
state of the world afterwards. -/
structure Run (W E : Type) where
  outcome : Outcome E
  calls : List Call
  world : W

/-- Lines 113 to 129 of `ScoreResponse`: parse the content of the first choice. -/
def parseReply {E : Type} (intSize : Nat) (content : Str) : Outcome E :=
  let str := TrimSpace content
  let l1 := Index str openFeedback
  let r1 := Index str closeFeedback
  let l2 := Index str openScore
  let r2 := Index str closeScore
  if l1 = -1 ∨ r1 = -1 ∨ l2 = -1 ∨ r2 = -1 then
    .returned none (some invalidResponseFormat)
  else
    match slice str (l1 + (openFeedback.length : Int)) r1 with
    | .error p => .panicked p
    | .ok reason =>
      match slice str (l2 + (openScore.length : Int)) r2 with
      | .error p => .panicked p
      | .ok score =>
        match Atoi intSize score with
        | (_, some err) => .returned none (some (.num err))
        | (iscore, none) => .returned (some ⟨iscore, reason⟩) none

/-- The function `ScoreResponse`, on a platform whose `int` has `intSize` bits,
against the SDK `cl` in the world `w`. -/
def ScoreResponse {W E M : Type} (intSize : Nat) (cl : Client W E M) (input output : Str)
    (w : W) : Run W E :=
  match cl.GetModel modelName w with
  | (.error err, w1) => ⟨.returned none (some (.sdk err)), [.getModel modelName], w1⟩
  | (.ok model, w1) =>
    match Sprintf promptFmt [input, output] with
    | none => ⟨.notModelled, [.getModel modelName], w1⟩
    | some prompt =>
      let messages : List RequestMessage :=
        [⟨.system, "You are a helpful assistant.".toList⟩, ⟨.user, prompt⟩]
      match cl.CreateInput model messages w1 with
      | (.error err, w2) =>
        ⟨.returned none (some (.sdk err)), [.getModel modelName, .createInput messages], w2⟩
      | (.ok in0, w2) =>
        let in1 : ChatModelInput := { in0 with Temperature := 1 / 2, MaxTokens := 500 }
        match cl.Invoke model in1 w2 with
        | (.error err, w3) =>
          ⟨.returned none (some (.sdk err)),
            [.getModel modelName, .createInput messages, .invoke in1], w3⟩
        | (.ok out, w3) =>
          match out.Choices with
          | [] =>
            ⟨.panicked .indexOutOfRange,
              [.getModel modelName, .createInput messages, .invoke in1], w3⟩
          | choice :: _ =>
            ⟨parseReply intSize choice.Message.Content,
              [.getModel modelName, .createInput messages, .invoke in1], w3⟩

/-! ## Vocabulary of the specification -/

/-- The text `sub` occurs in `s` at position `i` and at no position before `i`. -/
def FirstAt (s sub : Str) (i : Nat) : Prop :=
  sub <+: s.drop i ∧ ∀ j < i, ¬ sub <+: s.drop j

/-- ASCII decimal digit. -/
def isDigit (c : Char) : Bool :=
  48 ≤ c.toNat && c.toNat ≤ 57

/-- Value of a text of decimal digits, most significant digit first. -/
def decimalValue (ds : Str) : Nat :=
  ds.foldl (fun n c => n * 10 + (c.toNat - 48)) 0

/-- The text after the optional sign. -/
def digitsOf : Str → Str
  | [] => []
  | c :: rest => if c = '+' ∨ c = '-' then rest else c :: rest

/-- The integer a signed decimal text stands for. -/
def intTextValue : Str → Int
  | [] => 0
  | c :: rest =>
    if c = '-' then -(decimalValue rest : Int)
    else if c = '+' then (decimalValue rest : Int)
    else (decimalValue (c :: rest) : Int)

/-- A valid base-10 integer text for an `int` of `intSize` bits: an optional
`+` or `-`, then one or more ASCII decimal digits, the value within the range
of the type. -/
def IsIntText (intSize : Nat) (s : Str) : Prop :=
  digitsOf s ≠ [] ∧ (∀ c ∈ digitsOf s, isDigit c = true) ∧
    -(2 ^ (intSize - 1) : Int) ≤ intTextValue s ∧ intTextValue s < (2 ^ (intSize - 1) : Int)

instance (intSize : Nat) (s : Str) : Decidable (IsIntText intSize s) := by
  unfold IsIntText; infer_instance

/-- The piece of `promptFmt` before its first `%s`. -/
def promptHead : Str := promptFmt.take 407

/-- The piece of `promptFmt` between its two `%s`. -/
def promptMiddle : Str := (promptFmt.drop 409).take 63

/-- The piece of `promptFmt` after its second `%s`. -/
def promptTail : Str := promptFmt.drop 474

/-- The two messages `ScoreResponse` passes to `CreateInput` for a rendered prompt. -/
def requestMessages (prompt : Str) : List RequestMessage :=
  [⟨.system, "You are a helpful assistant.".toList⟩, ⟨.user, prompt⟩]

/-- The three SDK calls of `ScoreResponse input output` in the world `w` succeed
and the invocation answers `out`. -/
def Replies {W E M : Type} (cl : Client W E M) (input output : Str) (w : W)
    (out : ChatModelOutput) : Prop :=
  ∃ (model : M) (w1 : W) (prompt : Str) (in0 : ChatModelInput) (w2 w3 : W),
    cl.GetModel modelName w = (.ok model, w1) ∧
    Sprintf promptFmt [input, output] = some prompt ∧
    cl.CreateInput model (requestMessages prompt) w1 = (.ok in0, w2) ∧
    cl.Invoke model { in0 with Temperature := 1 / 2, MaxTokens := 500 } w2 = (.ok out, w3)

/-- The model's reply to `ScoreResponse input output` in the world `w` has
`content` as the message content of its first choice. -/
def FirstChoiceContent {W E M : Type} (cl : Client W E M) (input output : Str) (w : W)
    (content : Str) : Prop :=
  ∃ (out : ChatModelOutput) (choice : Choice) (others : List Choice),
    Replies cl input output w out ∧ out.Choices = choice :: others ∧
      choice.Message.Content = content

/-- The substring of `t` from position `lo` up to, not including, position `hi`. -/
def between (t : Str) (lo hi : Nat) : Str :=
  (t.drop lo).take (hi - lo)

/-- The reply `"<feedback>\n" + f + "\n</feedback>\n<score>\n" + d + "\n</score>"`. -/
def feedbackFirstReply (f d : Str) : Str :=
  "<feedback>\n".toList ++ (f ++ ("\n</feedback>\n<score>\n".toList ++ (d ++ "\n</score>".toList)))

/-- The reply `"<score>\n" + d + "\n</score>\n<feedback>\n" + f + "\n</feedback>"`. -/
def scoreFirstReply (f d : Str) : Str :=
  "<score>\n".toList ++ (d ++ ("\n</score>\n<feedback>\n".toList ++ (f ++ "\n</feedback>".toList)))

/-- A stand-in SDK with scripted results; its world counts the calls made. -/
def scripted (model built : Except Str Unit) (reply : Except Str ChatModelOutput) :
    Client Nat Str Unit where
  GetModel := fun _ w => (model, w + 1)
  CreateInput := fun _ messages w => (built.map fun _ => ⟨messages, 1, 0⟩, w + 1)
  Invoke := fun _ _ w => (reply, w + 1)

/-- A response with one choice, of the given content. -/
def singleChoice (content : Str) : ChatModelOutput :=
  ⟨[⟨0, "stop".toList, ⟨"assistant".toList, content⟩⟩]⟩

/-- A stand-in SDK whose model answers `content`. -/
def answering (content : Str) : Client Nat Str Unit :=
  scripted (.ok ()) (.ok ()) (.ok (singleChoice content))

/-- The call is an invocation of the model. -/
def Call.isInvoke : Call → Bool
  | .invoke _ => true
  | _ => false

/-- No occurrence of `sub` in `X ++ Y` starts inside `X`. -/
def NoOcc (sub X Y : Str) : Prop :=
  ∀ V : Str, V ≠ [] → V <:+ X → ¬ sub <+: V ++ Y

/-! ## Lemmas on `strings.Index` -/

theorem isPrefixOf_nil_iff (sub : Str) : sub.isPrefixOf [] = true ↔ sub = [] := by
  cases sub <;> simp [List.isPrefixOf]

theorem indexFrom_eq_neg_one (sub : Str) (s : Str) (i : Nat) :
    indexFrom sub s i = -1 ↔ ¬ sub <:+: s := by
  induction s generalizing i with
  | nil =>
    unfold indexFrom
    by_cases h : sub.isPrefixOf [] = true
    · have h2 := (isPrefixOf_nil_iff sub).1 h
      subst h2
      simp
    · have h2 : sub ≠ [] := fun e => h ((isPrefixOf_nil_iff sub).2 e)
      simp [h, h2]
  | cons c t ih =>
    unfold indexFrom
    rw [List.infix_cons_iff]
    by_cases h : sub.isPrefixOf (c :: t) = true
    · have h2 : sub <+: c :: t := List.isPrefixOf_iff_prefix.1 h
      simp only [h, if_true]
      constructor
      · intro e; omega
      · intro e; exact absurd (Or.inl h2) e
    · have h2 : ¬ sub <+: c :: t := fun e => h (List.isPrefixOf_iff_prefix.2 e)
      simp only [h, if_false, Bool.false_eq_true]
      rw [ih]
      tauto

theorem indexFrom_spec (sub : Str) (s : Str) (i : Nat) :
    indexFrom sub s i = -1 ∨ ∃ k : Nat, indexFrom sub s i = ((i + k : Nat) : Int) ∧ FirstAt s sub k := by
  induction s generalizing i with
  | nil =>
    unfold indexFrom
    by_cases h : sub.isPrefixOf [] = true
    · right
      refine ⟨0, by simp [h], ?_, by simp⟩
      simpa using List.isPrefixOf_iff_prefix.1 h
    · left; simp [h]
  | cons c t ih =>
    unfold indexFrom
    by_cases h : sub.isPrefixOf (c :: t) = true
    · right
      refine ⟨0, by simp [h], ?_, by simp⟩
      simpa using List.isPrefixOf_iff_prefix.1 h
    · have h2 : ¬ sub <+: c :: t := fun e => h (List.isPrefixOf_iff_prefix.2 e)
      simp only [h, if_false, Bool.false_eq_true]
      rcases ih (i + 1) with e | ⟨k, e, hk1, hk2⟩
      · left; exact e
      · right
        refine ⟨k + 1, ?_, ?_, ?_⟩
        · rw [e]; push_cast; ring
        · simpa using hk1
        · intro j hj
          cases j with
          | zero => simpa using h2
          | succ j => simpa using hk2 j (by omega)

theorem Index_eq_neg_one (s sub : Str) : Index s sub = -1 ↔ ¬ sub <:+: s :=
  indexFrom_eq_neg_one sub s 0

theorem FirstAt_unique {s sub : Str} {i j : Nat} (hi : FirstAt s sub i) (hj : FirstAt s sub j) :
    i = j := by
  rcases Nat.lt_trichotomy i j with h | h | h
  · exact absurd hi.1 (hj.2 i h)
  · exact h
  · exact absurd hj.1 (hi.2 j h)

theorem Index_eq_iff (s sub : Str) (k : Nat) : Index s sub = (k : Int) ↔ FirstAt s sub k := by
  unfold Index
  rcases indexFrom_spec sub s 0 with e | ⟨m, e, hm⟩
  · constructor
    · intro h; rw [e] at h; omega
    · intro h
      have := (indexFrom_eq_neg_one sub s 0).1 e
      exfalso; apply this
      obtain ⟨t, ht⟩ := h.1
      exact ⟨s.take k, t, by rw [List.append_assoc, ht, List.take_append_drop]⟩
  · constructor
    · intro h
      rw [e] at h
      have : m = k := by omega
      exact this ▸ hm
    · intro h
      rw [e, FirstAt_unique hm h]; simp

theorem Index_cases (s sub : Str) :
    Index s sub = -1 ∨ ∃ k : Nat, Index s sub = (k : Int) ∧ FirstAt s sub k := by
  rcases indexFrom_spec sub s 0 with e | ⟨m, e, hm⟩
  · exact Or.inl e
  · exact Or.inr ⟨m, by unfold Index; rw [e]; simp, hm⟩

theorem FirstAt_bound {s sub : Str} {k : Nat} (h : FirstAt s sub k) (hne : sub ≠ []) :
    k + sub.length ≤ s.length := by
  have := h.1.length_le
  rw [List.length_drop] at this
  have : 0 < sub.length := List.length_pos.2 hne
  omega

/-! ## Lemmas on `strconv.Atoi` -/

/-- Value of a digit text read after the value `a`. -/
theorem foldl_digits_ge (ds : Str) (a : Nat) :
    a ≤ ds.foldl (fun n c => n * 10 + (c.toNat - 48)) a := by
  induction ds generalizing a with
  | nil => simp
  | cons c t ih =>
    simp only [List.foldl_cons]
    exact le_trans (by omega) (ih _)

theorem foldl_digits_eq (ds : Str) (a : Nat) :
    ds.foldl (fun n c => n * 10 + (c.toNat - 48)) a = a * 10 ^ ds.length + decimalValue ds := by
  unfold decimalValue
  induction ds generalizing a with
  | nil => simp
  | cons c t ih =>
    simp only [List.foldl_cons, List.length_cons]
    rw [ih, ih (0 * 10 + _)]
    ring

theorem decimalValue_lt (ds : Str) (h : ∀ c ∈ ds, isDigit c = true) :
    decimalValue ds < 10 ^ ds.length := by
  induction ds using List.reverseRecOn with
  | nil => simp [decimalValue]
  | append_singleton t c ih =>
    have hc : isDigit c = true := h c (by simp)
    have ht := ih (fun x hx => h x (by simp [hx]))
    unfold decimalValue at *
    simp only [List.foldl_append, List.foldl_cons, List.foldl_nil, List.length_append,
      List.length_singleton]
    simp only [isDigit, Bool.and_eq_true, decide_eq_true_eq] at hc
    rw [pow_succ]
    omega

theorem digitVal_eq (c : Char) :
    digitVal c = if isDigit c = true then some (c.toNat - 48) else none := by
  unfold digitVal isDigit
  by_cases h : 48 ≤ c.toNat ∧ c.toNat ≤ 57
  · simp [h]
  · simp only [h, if_false]
    simp only [Bool.and_eq_true, decide_eq_true_eq, h, if_false]

theorem atoiFast_eq (ds : Str) (n : Nat) :
    atoiFast ds (n : Int) =
      if ∀ c ∈ ds, isDigit c = true then
        some ((ds.foldl (fun n c => n * 10 + (c.toNat - 48)) n : Nat) : Int)
      else none := by
  induction ds generalizing n with
  | nil => simp [atoiFast]
  | cons c t ih =>
    unfold atoiFast
    rw [digitVal_eq]
    by_cases hc : isDigit c = true
    · simp only [hc, if_true, List.foldl_cons, List.mem_cons, forall_eq_or_imp, true_and]
      have := ih (n * 10 + (c.toNat - 48))
      push_cast at this ⊢
      rw [← this]
    · simp [hc]

theorem parseUintLoop_spec (maxVal : Nat) (hmax : maxVal < 2 ^ 64) (ds : Str) (n : Nat)
    (hn : n ≤ maxVal) :
    ((parseUintLoop maxVal ds n).2 = none ∧ (∀ c ∈ ds, isDigit c = true) ∧
        (parseUintLoop maxVal ds n).1 = ds.foldl (fun n c => n * 10 + (c.toNat - 48)) n ∧
        (parseUintLoop maxVal ds n).1 ≤ maxVal) ∨
    ((parseUintLoop maxVal ds n).2 = some .ErrRange ∧ (parseUintLoop maxVal ds n).1 = maxVal ∧
        ((¬ ∀ c ∈ ds, isDigit c = true) ∨
          maxVal < ds.foldl (fun n c => n * 10 + (c.toNat - 48)) n)) ∨
    ((parseUintLoop maxVal ds n).2 = some .ErrSyntax ∧ ¬ ∀ c ∈ ds, isDigit c = true) := by
  induction ds generalizing n with
  | nil => left; simp [parseUintLoop, hn]
  | cons c t ih =>
    unfold parseUintLoop
    rw [digitVal_eq]
    by_cases hc : isDigit c = true
    · simp only [hc, if_true, List.foldl_cons, List.mem_cons, forall_eq_or_imp, true_and]
      have hge := foldl_digits_ge t (n * 10 + (c.toNat - 48))
      have hd : c.toNat - 48 ≤ 9 := by
        simp only [isDigit, Bool.and_eq_true, decide_eq_true_eq] at hc; omega
      by_cases hcut : cutoff10 ≤ n
      · simp only [hcut, if_true]
        right; left
        refine ⟨trivial, trivial, Or.inr ?_⟩
        unfold cutoff10 at hcut
        omega
      · simp only [hcut, if_false]
        unfold cutoff10 at hcut
        have h10 : n * 10 % 2 ^ 64 = n * 10 := Nat.mod_eq_of_lt (by omega)
        rw [h10]
        by_cases hov : (n * 10 + (c.toNat - 48)) % 2 ^ 64 < n * 10 ∨
            maxVal < (n * 10 + (c.toNat - 48)) % 2 ^ 64
        · simp only [hov, if_true]
          right; left
          refine ⟨trivial, trivial, Or.inr ?_⟩
          omega
        · simp only [hov, if_false]
          have hlt : n * 10 + (c.toNat - 48) < 2 ^ 64 := by omega
          have h1 : (n * 10 + (c.toNat - 48)) % 2 ^ 64 = n * 10 + (c.toNat - 48) :=
            Nat.mod_eq_of_lt hlt
          rw [h1] at hov ⊢
          exact ih _ (by omega)
    · right; right
      simp [hc]

theorem intTextValue_cons (c : Char) (rest : Str) :
    intTextValue (c :: rest) =
      if c = '-' then -(decimalValue (digitsOf (c :: rest)) : Int)
      else (decimalValue (digitsOf (c :: rest)) : Int) := by
  unfold intTextValue digitsOf
  by_cases h1 : c = '-'
  · simp [h1]
  · by_cases h2 : c = '+'
    · simp [h2]
    · simp [h1, h2]

theorem ParseInt_cons (intSize : Nat) (c : Char) (rest : Str) :
    ParseInt intSize (c :: rest) =
      if (ParseUint intSize (digitsOf (c :: rest))).2 = some .ErrSyntax then (0, some .ErrSyntax)
      else if c ≠ '-' ∧ 2 ^ (intSize - 1) ≤ (ParseUint intSize (digitsOf (c :: rest))).1 then
        (((2 ^ (intSize - 1) : Nat) : Int) - 1, some .ErrRange)
      else if c = '-' ∧ 2 ^ (intSize - 1) < (ParseUint intSize (digitsOf (c :: rest))).1 then
        (-((2 ^ (intSize - 1) : Nat) : Int), some .ErrRange)
      else (if c = '-' then -((ParseUint intSize (digitsOf (c :: rest))).1 : Int)
        else ((ParseUint intSize (digitsOf (c :: rest))).1 : Int), none) := by
  unfold ParseInt digitsOf
  by_cases h1 : c = '-'
  · simp [h1]
  · by_cases h2 : c = '+'
    · simp [h2]
    · simp [h1, h2]

theorem rangeCheck_spec (intSize : Nat) (hb : intSize = 32 ∨ intSize = 64) (neg : Prop)
    [Decidable neg] (v : Nat) :
    ((if ¬ neg ∧ 2 ^ (intSize - 1) ≤ v then
          ((((2 ^ (intSize - 1) : Nat) : Int) - 1, some NumErrKind.ErrRange) : Int × Option NumErrKind)
        else if neg ∧ 2 ^ (intSize - 1) < v then
          (-((2 ^ (intSize - 1) : Nat) : Int), some NumErrKind.ErrRange)
        else (if neg then -(v : Int) else (v : Int), none)).2 = none ↔
      (-(2 ^ (intSize - 1) : Int) ≤ (if neg then -(v : Int) else (v : Int)) ∧
        (if neg then -(v : Int) else (v : Int)) < (2 ^ (intSize - 1) : Int))) ∧
    ((if ¬ neg ∧ 2 ^ (intSize - 1) ≤ v then
          ((((2 ^ (intSize - 1) : Nat) : Int) - 1, some NumErrKind.ErrRange) : Int × Option NumErrKind)
        else if neg ∧ 2 ^ (intSize - 1) < v then
          (-((2 ^ (intSize - 1) : Nat) : Int), some NumErrKind.ErrRange)
        else (if neg then -(v : Int) else (v : Int), none)).2 = none →
      (if ¬ neg ∧ 2 ^ (intSize - 1) ≤ v then
          ((((2 ^ (intSize - 1) : Nat) : Int) - 1, some NumErrKind.ErrRange) : Int × Option NumErrKind)
        else if neg ∧ 2 ^ (intSize - 1) < v then
          (-((2 ^ (intSize - 1) : Nat) : Int), some NumErrKind.ErrRange)
        else (if neg then -(v : Int) else (v : Int), none)).1 =
        (if neg then -(v : Int) else (v : Int))) := by
  rcases hb with rfl | rfl
  · norm_num
    by_cases hn : neg
    · by_cases h : 2147483648 < v
      · simp [hn, h]
      · simp [hn, h]; omega
    · by_cases h : 2147483648 ≤ v
      · simp [hn, h]
      · simp [hn, h]; omega
  · norm_num
    by_cases hn : neg
    · by_cases h : 9223372036854775808 < v
      · simp [hn, h]
      · simp [hn, h]; omega
    · by_cases h : 9223372036854775808 ≤ v
      · simp [hn, h]
      · simp [hn, h]; omega

theorem ParseInt_spec (intSize : Nat) (hb : intSize = 32 ∨ intSize = 64) (s : Str) :
    ((ParseInt intSize s).2 = none ↔ IsIntText intSize s) ∧
      ((ParseInt intSize s).2 = none → (ParseInt intSize s).1 = intTextValue s) := by
  cases s with
  | nil => simp [ParseInt, IsIntText, digitsOf]
  | cons c rest =>
    rw [ParseInt_cons, intTextValue_cons]
    unfold IsIntText
    rw [intTextValue_cons]
    generalize digitsOf (c :: rest) = ds
    unfold ParseUint
    by_cases hds : ds = []
    · simp [hds]
    · simp only [hds, if_false]
      have hmax : 2 ^ intSize - 1 < 2 ^ 64 := by
        rcases hb with rfl | rfl <;> norm_num
      have hval : decimalValue ds = ds.foldl (fun n c => n * 10 + (c.toNat - 48)) 0 := rfl
      have hrc := rangeCheck_spec intSize hb (c = '-')
      rcases parseUintLoop_spec (2 ^ intSize - 1) hmax ds 0 (Nat.zero_le _) with
        ⟨e, hd, hv, hle⟩ | ⟨e, hv, hbad⟩ | ⟨e, hbad⟩
      · rw [← hval] at hv
        rw [e, hv]
        have h0 : ¬ ((none : Option NumErrKind) = some NumErrKind.ErrSyntax) := by simp
        simp only [h0, if_false, ne_eq, hds, not_false_eq_true, true_and]
        have hr := hrc (decimalValue ds)
        exact ⟨⟨fun h => ⟨hd, hr.1.1 h⟩, fun h => hr.1.2 h.2⟩, hr.2⟩
      · rw [← hval] at hbad
        rw [e, hv]
        have h0 : ¬ (some NumErrKind.ErrRange = some NumErrKind.ErrSyntax) := by simp
        simp only [h0, if_false]
        have hne : ¬ ((∀ c ∈ ds, isDigit c = true) ∧ decimalValue ds ≤ 2 ^ intSize - 1) := by
          rintro ⟨h1, h2⟩
          rcases hbad with h | h
          · exact h h1
          · omega
        have hr := hrc (2 ^ intSize - 1)
        have hfalse : ¬ ((∀ c ∈ ds, isDigit c = true) ∧
            -(2 ^ (intSize - 1) : Int) ≤
              (if c = '-' then -(decimalValue ds : Int) else (decimalValue ds : Int)) ∧
            (if c = '-' then -(decimalValue ds : Int) else (decimalValue ds : Int)) <
              (2 ^ (intSize - 1) : Int)) := by
          rintro ⟨h1, h2, h3⟩
          apply hne
          refine ⟨h1, ?_⟩
          rcases hb with rfl | rfl <;> norm_num at h2 h3 ⊢ <;>
            by_cases hc : c = '-' <;> simp only [hc, if_true, if_false] at h2 h3 <;> omega
        have hfalse2 : ¬ (-(2 ^ (intSize - 1) : Int) ≤
              (if c = '-' then -((2 ^ intSize - 1 : Nat) : Int) else ((2 ^ intSize - 1 : Nat) : Int)) ∧
            (if c = '-' then -((2 ^ intSize - 1 : Nat) : Int) else ((2 ^ intSize - 1 : Nat) : Int)) <
              (2 ^ (intSize - 1) : Int)) := by
          rintro ⟨h2, h3⟩
          rcases hb with rfl | rfl <;> norm_num at h2 h3 <;>
            by_cases hc : c = '-' <;> simp only [hc, if_true, if_false] at h2 h3 <;> omega
        have hsome := fun h => hfalse2 (hr.1.1 h)
        refine ⟨⟨fun h => absurd h hsome, fun h => absurd ⟨h.2.1, h.2.2⟩ hfalse⟩,
          fun h => absurd h hsome⟩
      · simp [e, hbad]

theorem Atoi_spec (intSize : Nat) (hb : intSize = 32 ∨ intSize = 64) (s : Str) :
    ((Atoi intSize s).2 = none ↔ IsIntText intSize s) ∧
      ((Atoi intSize s).2 = none → (Atoi intSize s).1 = intTextValue s) := by
  unfold Atoi
  by_cases hfast : (intSize = 32 ∧ 0 < s.length ∧ s.length < 10) ∨
      (intSize = 64 ∧ 0 < s.length ∧ s.length < 19)
  · simp only [hfast, if_true]
    cases s with
    | nil => simp at hfast
    | cons c rest =>
      have hds : digitsOf (c :: rest) = if c = '-' ∨ c = '+' then rest else c :: rest := by
        unfold digitsOf
        by_cases h1 : c = '-' <;> by_cases h2 : c = '+' <;> simp [h1, h2]
      unfold IsIntText
      rw [intTextValue_cons]
      simp only [beq_iff_eq]
      rw [← hds]
      have hlen : (digitsOf (c :: rest)).length ≤ (c :: rest).length := by
        rw [hds]; split <;> simp
      generalize digitsOf (c :: rest) = ds at hlen ⊢
      by_cases hemp : ds = []
      · simp [hemp]
      · have hpos : ¬ ds.length < 1 := by
          have := List.length_pos.2 hemp; omega
        simp only [hpos, if_false]
        have hfa := atoiFast_eq ds 0
        simp only [Nat.cast_zero] at hfa
        rw [hfa]
        by_cases hd : ∀ c ∈ ds, isDigit c = true
        · rw [if_pos hd]
          have hlt := decimalValue_lt ds hd
          have hval : decimalValue ds = ds.foldl (fun n c => n * 10 + (c.toNat - 48)) 0 := rfl
          rw [← hval]
          simp only [hemp, ne_eq, not_false_eq_true, true_and]
          have hpow : decimalValue ds < 2 ^ (intSize - 1) := by
            rcases hfast with ⟨rfl, _, h2⟩ | ⟨rfl, _, h2⟩
            · calc decimalValue ds < 10 ^ ds.length := hlt
                _ ≤ 10 ^ 9 := Nat.pow_le_pow_right (by norm_num) (by simp at h2 hlen; omega)
                _ < 2 ^ (32 - 1) := by norm_num
            · calc decimalValue ds < 10 ^ ds.length := hlt
                _ ≤ 10 ^ 18 := Nat.pow_le_pow_right (by norm_num) (by simp at h2 hlen; omega)
                _ < 2 ^ (64 - 1) := by norm_num
          have hpowZ : (decimalValue ds : Int) < 2 ^ (intSize - 1) := by exact_mod_cast hpow
          have hall : (∀ c ∈ ds, isDigit c = true) ↔ True := iff_true_intro hd
          by_cases hc : c = '-' <;> simp [hc, hall] <;> omega
        · rw [if_neg hd]
          simp [hd]
  · simp only [hfast, if_false]
    have hp := ParseInt_spec intSize hb s
    cases h : (ParseInt intSize s).2 with
    | none => simpa [h] using hp
    | some k =>
      rw [h] at hp
      simpa using hp.1

/-! ## Lemmas on `strconv.Itoa` -/

theorem digitChar_spec (k : Nat) (hk : k < 10) :
    isDigit (Nat.digitChar k) = true ∧ (Nat.digitChar k).toNat - 48 = k := by
  interval_cases k <;> exact ⟨rfl, rfl⟩

theorem decimalValue_concat (ds : Str) (c : Char) :
    decimalValue (ds ++ [c]) = decimalValue ds * 10 + (c.toNat - 48) := by
  simp [decimalValue]

theorem toDigitsCore_spec (fuel n : Nat) (acc : Str) (h : n < fuel) :
    ∃ P : Str, Nat.toDigitsCore 10 fuel n acc = P ++ acc ∧ P ≠ [] ∧
      (∀ c ∈ P, isDigit c = true) ∧ decimalValue P = n := by
  induction fuel generalizing n acc with
  | zero => omega
  | succ fuel ih =>
    have hd := digitChar_spec (n % 10) (Nat.mod_lt _ (by norm_num))
    unfold Nat.toDigitsCore
    by_cases h0 : n / 10 = 0
    · simp only [h0, if_true]
      refine ⟨[Nat.digitChar (n % 10)], rfl, by simp, ?_, ?_⟩
      · intro c hc
        rw [List.mem_singleton] at hc
        rw [hc]; exact hd.1
      · have := decimalValue_concat [] (Nat.digitChar (n % 10))
        simp only [List.nil_append] at this
        rw [this, hd.2]
        simp [decimalValue]
        omega
    · simp only [h0, if_false]
      obtain ⟨P, hP, _, hdig, hval⟩ := ih (n / 10) (Nat.digitChar (n % 10) :: acc) (by omega)
      refine ⟨P ++ [Nat.digitChar (n % 10)], by rw [hP]; simp, by simp, ?_, ?_⟩
      · intro c hc
        rw [List.mem_append, List.mem_singleton] at hc
        rcases hc with hc | hc
        · exact hdig c hc
        · rw [hc]; exact hd.1
      · rw [decimalValue_concat, hval, hd.2]
        omega

theorem toDigits_spec (n : Nat) :
    Nat.toDigits 10 n ≠ [] ∧ (∀ c ∈ Nat.toDigits 10 n, isDigit c = true) ∧
      decimalValue (Nat.toDigits 10 n) = n := by
  obtain ⟨P, hP, hne, hdig, hval⟩ := toDigitsCore_spec (n + 1) n [] (by omega)
  have : Nat.toDigits 10 n = P := by
    unfold Nat.toDigits; rw [hP]; simp
  rw [this]
  exact ⟨hne, hdig, hval⟩

theorem isDigit_not_sign {c : Char} (h : isDigit c = true) : c ≠ '+' ∧ c ≠ '-' := by
  constructor <;> rintro rfl <;> revert h <;> decide

theorem digitsOf_of_digits {ds : Str} (h : ∀ c ∈ ds, isDigit c = true) : digitsOf ds = ds := by
  cases ds with
  | nil => rfl
  | cons c t =>
    have := isDigit_not_sign (h c (by simp))
    simp [digitsOf, this.1, this.2]

theorem Itoa_spec (intSize : Nat) (n : Int)
    (hlo : -(2 ^ (intSize - 1) : Int) ≤ n) (hhi : n < (2 ^ (intSize - 1) : Int)) :
    IsIntText intSize (Itoa n) ∧ intTextValue (Itoa n) = n := by
  obtain ⟨hne, hdig, hval⟩ := toDigits_spec n.natAbs
  have key : digitsOf (Itoa n) = Nat.toDigits 10 n.natAbs ∧ intTextValue (Itoa n) = n := by
    unfold Itoa
    by_cases hneg : n < 0
    · simp only [hneg, if_true]
      refine ⟨by simp [digitsOf], ?_⟩
      simp only [intTextValue, if_true, hval]
      omega
    · simp only [hneg, if_false]
      rw [digitsOf_of_digits hdig]
      refine ⟨rfl, ?_⟩
      cases hT : Nat.toDigits 10 n.natAbs with
      | nil => exact absurd hT hne
      | cons c t =>
        have hc := isDigit_not_sign (hdig c (by rw [hT]; simp))
        rw [intTextValue_cons, if_neg hc.2, ← hT, digitsOf_of_digits hdig, hval]
        omega
  refine ⟨⟨?_, ?_, ?_, ?_⟩, key.2⟩
  · rw [key.1]; exact hne
  · rw [key.1]; exact hdig
  · rw [key.2]; exact hlo
  · rw [key.2]; exact hhi

theorem Itoa_chars (n : Int) : ∀ c ∈ Itoa n, isDigit c = true ∨ c = '-' := by
  obtain ⟨_, hdig, _⟩ := toDigits_spec n.natAbs
  intro c hc
  unfold Itoa at hc
  by_cases hneg : n < 0
  · simp only [hneg, if_true, List.mem_cons] at hc
    rcases hc with hc | hc
    · exact Or.inr hc
    · exact Or.inl (hdig c hc)
  · simp only [hneg, if_false] at hc
    exact Or.inl (hdig c hc)

theorem Atoi_Itoa (intSize : Nat) (hb : intSize = 32 ∨ intSize = 64) (n : Int)
    (hlo : -(2 ^ (intSize - 1) : Int) ≤ n) (hhi : n < (2 ^ (intSize - 1) : Int)) :
    Atoi intSize (Itoa n) = (n, none) := by
  have h1 := Itoa_spec intSize n hlo hhi
  have h2 := Atoi_spec intSize hb (Itoa n)
  have h3 := h2.1.2 h1.1
  have h4 := h2.2 h3
  rw [h1.2] at h4
  exact Prod.ext h4 h3

/-! ## Searching a text made of segments -/

theorem indexFrom_cons (sub : Str) (c : Char) (t : Str) (i : Nat) :
    indexFrom sub (c :: t) i =
      if sub.isPrefixOf (c :: t) then (i : Int) else indexFrom sub t (i + 1) := by
  rw [indexFrom]

theorem indexFrom_skip (sub X Y : Str) (i : Nat) (h : NoOcc sub X Y) :
    indexFrom sub (X ++ Y) i = indexFrom sub Y (i + X.length) := by
  induction X generalizing i with
  | nil => simp
  | cons c X ih =>
    have h1 : ¬ sub <+: (c :: X) ++ Y := h (c :: X) (by simp) (List.suffix_refl _)
    have h2 : sub.isPrefixOf (c :: (X ++ Y)) = false := by
      rw [Bool.eq_false_iff]
      intro e
      exact h1 (List.isPrefixOf_iff_prefix.1 e)
    rw [List.cons_append, indexFrom_cons, h2]
    simp only [Bool.false_eq_true, if_false]
    rw [ih (i + 1) (fun V hV hs => h V hV (hs.trans (List.suffix_cons c X)))]
    simp only [List.length_cons]
    congr 1
    omega

theorem indexFrom_found (sub Y : Str) (i : Nat) : indexFrom sub (sub ++ Y) i = (i : Int) := by
  have hp : sub.isPrefixOf (sub ++ Y) = true :=
    List.isPrefixOf_iff_prefix.2 (List.prefix_append sub Y)
  cases h : sub ++ Y with
  | nil => rw [h] at hp; simp [indexFrom, hp]
  | cons c t => rw [h] at hp; simp [indexFrom, hp]

theorem NoOcc_nil (sub Y : Str) : NoOcc sub [] Y := by
  intro V hV hs
  exact absurd (List.eq_nil_of_suffix_nil hs) hV

theorem NoOcc_append {sub X1 X2 Y : Str} (h1 : NoOcc sub X1 (X2 ++ Y)) (h2 : NoOcc sub X2 Y) :
    NoOcc sub (X1 ++ X2) Y := by
  intro V hV hs
  rcases List.suffix_or_suffix_of_suffix hs (List.suffix_append X1 X2) with hs2 | ⟨U, hU⟩
  · exact h2 V hV hs2
  · by_cases hUn : U = []
    · subst hUn
      simp only [List.nil_append] at hU
      subst hU
      exact h2 X2 hV (List.suffix_refl _)
    · subst hU
      rw [List.append_assoc]
      apply h1 U hUn
      obtain ⟨t, ht⟩ := hs
      rw [← List.append_assoc] at ht
      exact ⟨t, List.append_cancel_right ht⟩

/-- A character of `sub` that `X` does not have, and that `Y` does not have
early enough, rules out an occurrence starting in `X`. -/
theorem NoOcc_of_char (c : Char) (k : Nat) (sub X Y : Str) (hk : sub[k]? = some c)
    (hX : c ∉ X) (hY : c ∉ Y.take k) : NoOcc sub X Y := by
  intro V hV hs hp
  obtain ⟨t, ht⟩ := hp
  have hlen : 0 < V.length := List.length_pos.2 hV
  have hget : (V ++ Y)[k]? = some c := by
    rw [← ht, List.getElem?_append_left (by
      rcases List.getElem?_eq_some_iff.1 hk with ⟨h, _⟩; exact h)]
    exact hk
  by_cases hkV : k < V.length
  · rw [List.getElem?_append_left hkV] at hget
    exact hX (hs.subset (List.getElem?_mem hget))
  · rw [List.getElem?_append_right (by omega)] at hget
    apply hY
    have : (Y.take k)[k - V.length]? = some c := by
      rw [List.getElem?_take_of_lt (by omega)]; exact hget
    exact List.getElem?_mem this

/-- A text without the character `c` that is a prefix of `f ++ Y`, where `Y`
starts with `c`, is a prefix of `f`. -/
theorem prefix_of_prefix_append (c : Char) (m f Y : Str) (hm : c ∉ m) (hY : Y.head? = some c)
    (h : m <+: f ++ Y) : m <+: f := by
  rcases List.prefix_or_prefix_of_prefix h (List.prefix_append f Y) with h1 | h1
  · exact h1
  · obtain ⟨W, hW⟩ := h1
    subst hW
    rw [List.prefix_append_right_inj] at h
    cases W with
    | nil => simp
    | cons x W =>
      cases Y with
      | nil => simp at hY
      | cons y Y =>
        simp only [List.head?_cons, Option.some.injEq] at hY
        have : x = y := (List.cons_prefix_cons.1 h).1
        exact absurd (by simp [this, hY]) hm

/-- Inside `f`, followed by the character `c`: a marker `c :: m` with no other
`c` occurs only where it occurs in `f`. -/
theorem NoOcc_of_absent (c : Char) (m f Y : Str) (hm : c ∉ m) (hY : Y.head? = some c)
    (hf : ¬ (c :: m) <:+: f) : NoOcc (c :: m) f Y := by
  intro V hV hs hp
  cases V with
  | nil => exact hV rfl
  | cons v V =>
    rw [List.cons_append, List.cons_prefix_cons] at hp
    obtain ⟨hv, hp⟩ := hp
    have h1 := prefix_of_prefix_append c m V Y hm hY hp
    apply hf
    have h2 : (c :: m) <+: (v :: V) := by
      rw [List.cons_prefix_cons]; exact ⟨hv, h1⟩
    exact h2.isInfix.trans hs.isInfix

/-- The character `c` before `f`: a marker `c :: m` with no other `c` starts
there only when `f` begins with `m`. -/
theorem NoOcc_before (c : Char) (m f Y : Str) (hm : c ∉ m) (hY : Y.head? = some c)
    (hf : ¬ m <+: f) : NoOcc (c :: m) [c] (f ++ Y) := by
  intro V hV hs hp
  have hVc : V = [c] := by
    rcases List.suffix_cons_iff.1 hs with h | h
    · exact h
    · exact absurd (List.eq_nil_of_suffix_nil h) hV
  subst hVc
  rw [List.singleton_append, List.cons_prefix_cons] at hp
  exact hf (prefix_of_prefix_append c m f Y hm hY hp.2)

/-- Inside `f`, followed by the character `c`: a marker `A ++ [c]` with no
other `c` occurs only where it occurs in `f` or where `f` ends with `A`. -/
theorem NoOcc_of_no_ending (c : Char) (A f Y : Str) (hA : c ∉ A) (hY : Y.head? = some c)
    (hf : ¬ (A ++ [c]) <:+: f) (hs : ¬ A <:+ f) : NoOcc (A ++ [c]) f Y := by
  intro V hV hVs hp
  rcases List.prefix_or_prefix_of_prefix hp (List.prefix_append V Y) with h1 | h1
  · exact hf (h1.isInfix.trans hVs.isInfix)
  · obtain ⟨W, hW⟩ := h1
    rw [← hW, List.prefix_append_right_inj] at hp
    cases W with
    | nil =>
      rw [List.append_nil] at hW
      exact hf (hW ▸ hVs.isInfix)
    | cons x W =>
      cases Y with
      | nil => simp at hY
      | cons y Y =>
        simp only [List.head?_cons, Option.some.injEq] at hY
        have hx : x = c := by rw [(List.cons_prefix_cons.1 hp).1, hY]
        subst hx
        rcases List.append_eq_append_iff.1 hW with ⟨a, ha, hb⟩ | ⟨b, ha, hb⟩
        · cases a with
          | nil =>
            rw [List.append_nil] at ha
            exact hs (ha ▸ hVs)
          | cons z a =>
            have hz : z = x := by
              have := congrArg List.head? hb
              simpa using this.symm
            exact hA (by rw [ha]; simp [hz])
        · cases b with
          | nil =>
            rw [List.append_nil] at ha
            exact hs (ha ▸ hVs)
          | cons z b =>
            have := congrArg List.length hb
            simp at this

/-! ## Lemmas on `fmt.Sprintf` and the prompt -/

theorem doPrintf_literal (lit rest : Str) (args : List Str) (h : '%' ∉ lit) :
    doPrintf (lit ++ rest) args = (doPrintf rest args).map fun r => (lit ++ r.1, r.2) := by
  induction lit with
  | nil => simp
  | cons c lit ih =>
    have hc : c ≠ '%' := fun e => h (by simp [e])
    have hl : '%' ∉ lit := fun e => h (by simp [e])
    rw [List.cons_append]
    conv_lhs => unfold doPrintf
    simp only [hc, ne_eq, not_false_eq_true, if_true]
    rw [ih hl]
    cases doPrintf rest args <;> simp

theorem doPrintf_verb_s (rest : Str) (a : Str) (args : List Str) :
    doPrintf ('%' :: 's' :: rest) (a :: args) =
      (doPrintf rest args).map fun r => (a ++ r.1, r.2) := by
  conv_lhs => unfold doPrintf
  simp

set_option maxRecDepth 1000000 in
theorem promptFmt_split :
    promptFmt = promptHead ++ ('%' :: 's' :: (promptMiddle ++ ('%' :: 's' :: promptTail))) :=
  rfl

theorem promptPieces_facts :
    ('%' ∉ promptHead ∧ '%' ∉ promptMiddle ∧ '%' ∉ promptTail) ∧
    "<inputs>\n".toList <:+ promptHead ∧
    promptMiddle =
      "\n</inputs>\n\n# OUTPUT\nBelow is the output of the task:\n<output>\n".toList ∧
    "\n</output>".toList <+: promptTail := by
  decide!

theorem promptPieces_literal :
    '%' ∉ promptHead ∧ '%' ∉ promptMiddle ∧ '%' ∉ promptTail :=
  promptPieces_facts.1

theorem Sprintf_promptFmt (input output : Str) :
    Sprintf promptFmt [input, output] =
      some (promptHead ++ input ++ promptMiddle ++ output ++ promptTail) := by
  obtain ⟨h0, h1, h2⟩ := promptPieces_literal
  have h3 : doPrintf promptTail [] = some (promptTail, []) := by
    have := doPrintf_literal promptTail [] [] h2
    rw [List.append_nil] at this
    rw [this]
    simp [doPrintf]
  unfold Sprintf
  rw [promptFmt_split, doPrintf_literal _ _ _ h0, doPrintf_verb_s, doPrintf_literal _ _ _ h1,
    doPrintf_verb_s, h3]
  simp

/-! ## Lemmas on `ScoreResponse` -/

theorem ScoreResponse_of_replies {W E M : Type} (intSize : Nat) (cl : Client W E M)
    (input output : Str) (w : W) (out : ChatModelOutput) (h : Replies cl input output w out) :
    (ScoreResponse intSize cl input output w).outcome =
      match out.Choices with
      | [] => .panicked .indexOutOfRange
      | choice :: _ => parseReply intSize choice.Message.Content := by
  obtain ⟨model, w1, prompt, in0, w2, w3, h1, h2, h3, h4⟩ := h
  unfold requestMessages at h3
  unfold ScoreResponse
  generalize Sprintf promptFmt [input, output] = rendered at h2 ⊢
  subst h2
  simp only [h1, h3, h4]
  cases out.Choices <;> rfl

theorem ScoreResponse_of_content {W E M : Type} (intSize : Nat) (cl : Client W E M)
    (input output : Str) (w : W) (content : Str)
    (h : FirstChoiceContent cl input output w content) :
    (ScoreResponse intSize cl input output w).outcome = parseReply intSize content := by
  obtain ⟨out, choice, others, h1, h2, h3⟩ := h
  rw [ScoreResponse_of_replies intSize cl input output w out h1, h2, ← h3]

theorem scripted_replies (out : ChatModelOutput) (input output : Str) (w : Nat) :
    Replies (scripted (.ok ()) (.ok ()) (.ok out)) input output w out :=
  ⟨(), w + 1, _, ⟨requestMessages _, 1, 0⟩, w + 2, w + 3,
    rfl, Sprintf_promptFmt input output, rfl, rfl⟩

theorem answering_replies (content input output : Str) (w : Nat) :
    FirstChoiceContent (answering content) input output w content :=
  ⟨singleChoice content, _, [], scripted_replies _ input output w, rfl, rfl⟩

theorem parseReply_ne_indexOutOfRange {E : Type} (intSize : Nat) (content : Str) :
    (parseReply intSize content : Outcome E) ≠ .panicked .indexOutOfRange := by
  unfold parseReply slice
  simp only []
  split_ifs <;> simp
  all_goals
    split <;> simp

/-! ## Lemmas on `strings.TrimSpace` -/

theorem TrimSpace_within (s : Str) : TrimSpace s <:+: s :=
  (List.rdropWhile_prefix isSpace _).isInfix.trans (List.dropWhile_suffix isSpace).isInfix

theorem dropWhile_append_all (p : Char → Bool) (w s : Str) (h : ∀ c ∈ w, p c = true) :
    (w ++ s).dropWhile p = s.dropWhile p := by
  induction w with
  | nil => rfl
  | cons c w ih =>
    have hc : p c = true := h c (by simp)
    rw [List.cons_append, List.dropWhile_cons_of_pos hc]
    exact ih (fun x hx => h x (by simp [hx]))

theorem rdropWhile_append_all (p : Char → Bool) (s w : Str) (h : ∀ c ∈ w, p c = true) :
    (s ++ w).rdropWhile p = s.rdropWhile p := by
  unfold List.rdropWhile
  rw [List.reverse_append, dropWhile_append_all p w.reverse s.reverse (by simpa using h)]

theorem dropWhile_append_keep (p : Char → Bool) (s w : Str) (h : ∃ c ∈ s, p c = false) :
    (s ++ w).dropWhile p = s.dropWhile p ++ w := by
  induction s with
  | nil => simp at h
  | cons c s ih =>
    by_cases hc : p c = true
    · rw [List.cons_append, List.dropWhile_cons_of_pos hc, List.dropWhile_cons_of_pos hc]
      obtain ⟨x, hx, hpx⟩ := h
      rcases List.mem_cons.1 hx with e | e
      · rw [e, hc] at hpx; cases hpx
      · exact ih ⟨x, e, hpx⟩
    · rw [List.cons_append, List.dropWhile_cons_of_neg hc, List.dropWhile_cons_of_neg hc]
      rfl

theorem TrimSpace_pad (w1 s w2 : Str) (h1 : ∀ c ∈ w1, isSpace c = true)
    (h2 : ∀ c ∈ w2, isSpace c = true) : TrimSpace (w1 ++ s ++ w2) = TrimSpace s := by
  unfold TrimSpace
  rw [List.append_assoc, dropWhile_append_all isSpace w1 _ h1]
  by_cases hs : ∃ c ∈ s, isSpace c = false
  · rw [dropWhile_append_keep isSpace s w2 hs, rdropWhile_append_all isSpace _ w2 h2]
  · have hall : ∀ c ∈ s, isSpace c = true := by
      intro c hc
      by_contra hn
      exact hs ⟨c, hc, by simpa using hn⟩
    rw [dropWhile_append_all isSpace s w2 hall]
    have e1 : w2.dropWhile isSpace = [] := by
      have := dropWhile_append_all isSpace w2 [] h2
      simpa using this
    have e2 : s.dropWhile isSpace = [] := by
      have := dropWhile_append_all isSpace s [] hall
      simpa using this
    rw [e1, e2]

theorem TrimSpace_of_ends (a b : Char) (X : Str) (ha : isSpace a = false)
    (hb : isSpace b = false) : TrimSpace (a :: (X ++ [b])) = a :: (X ++ [b]) := by
  unfold TrimSpace
  rw [List.dropWhile_cons_of_neg (by simp [ha]), ← List.cons_append,
    List.rdropWhile_concat_neg _ _ _ (by simp [hb])]

theorem promptPieces_shape :
    "<inputs>\n".toList <:+ promptHead ∧
      promptMiddle =
        "\n</inputs>\n\n# OUTPUT\nBelow is the output of the task:\n<output>\n".toList ∧
      "\n</output>".toList <+: promptTail :=
  promptPieces_facts.2

theorem ScoreResponse_calls {W E M : Type} (intSize : Nat) (cl : Client W E M)
    (input output : Str) (w : W) :
    (ScoreResponse intSize cl input output w).calls = [.getModel modelName] ∨
    (ScoreResponse intSize cl input output w).calls = [.getModel modelName,
      .createInput
        (requestMessages (promptHead ++ input ++ promptMiddle ++ output ++ promptTail))] ∨
    ∃ in0 : ChatModelInput,
      (ScoreResponse intSize cl input output w).calls = [.getModel modelName,
        .createInput
          (requestMessages (promptHead ++ input ++ promptMiddle ++ output ++ promptTail)),
        .invoke { in0 with Temperature := 1 / 2, MaxTokens := 500 }] := by
  have hs := Sprintf_promptFmt input output
  unfold ScoreResponse requestMessages
  generalize Sprintf promptFmt [input, output] = rendered at hs ⊢
  subst hs
  rcases h1 : cl.GetModel modelName w with ⟨e | model, w1⟩
  · left; rfl
  · simp only []
    rcases h2 : cl.CreateInput model _ w1 with ⟨e | in0, w2⟩
    · right; left; rfl
    · simp only []
      right; right
      refine ⟨in0, ?_⟩
      rcases h3 : cl.Invoke model _ w2 with ⟨e | out, w3⟩
      · rfl
      · simp only []
        cases out.Choices <;> rfl

theorem ScoreResponse_calls_of_replies {W E M : Type} (intSize : Nat) (cl : Client W E M)
    (input output : Str) (w : W) (out : ChatModelOutput) (h : Replies cl input output w out) :
    ∃ in0 : ChatModelInput,
      (ScoreResponse intSize cl input output w).calls = [.getModel modelName,
        .createInput
          (requestMessages (promptHead ++ input ++ promptMiddle ++ output ++ promptTail)),
        .invoke { in0 with Temperature := 1 / 2, MaxTokens := 500 }] := by
  obtain ⟨model, w1, prompt, in0, w2, w3, h1, h2, h3, h4⟩ := h
  have hs := Sprintf_promptFmt input output
  refine ⟨in0, ?_⟩
  have hp : prompt = promptHead ++ input ++ promptMiddle ++ output ++ promptTail :=
    Option.some.inj (h2.symm.trans hs)
  rw [hp] at h3
  clear h2 hp
  unfold requestMessages at h3 ⊢
  unfold ScoreResponse
  generalize Sprintf promptFmt [input, output] = rendered at hs ⊢
  subst hs
  simp only [h1, h3, h4]
  cases out.Choices <;> rfl

/-! ## The shape of every run -/

theorem openFeedback_length : openFeedback.length = 11 := rfl

theorem openScore_length : openScore.length = 8 := rfl

theorem slice_nat (t : Str) (lo hi : Nat) (hhi : hi ≤ t.length) :
    slice t (lo : Int) (hi : Int) =
      if lo ≤ hi then .ok (between t lo hi) else .error .sliceBounds := by
  unfold slice between
  by_cases h : lo ≤ hi
  · have h1 : (0 : Int) ≤ (lo : Int) ∧ (lo : Int) ≤ (hi : Int) ∧ (hi : Int) ≤ (t.length : Int) :=
      ⟨by omega, by omega, by omega⟩
    simp only [h1, h, and_self, if_true, Int.toNat_ofNat]
  · have h1 : ¬ ((0 : Int) ≤ (lo : Int) ∧ (lo : Int) ≤ (hi : Int) ∧
        (hi : Int) ≤ (t.length : Int)) := by omega
    simp only [h1, h, if_false]

/-- The result of lines 119 to 129 on the trimmed reply `t`, the four markers
found at `l1`, `r1`, `l2`, `r2`. -/
theorem parseReply_found {E : Type} (intSize : Nat) (content : Str) (l1 r1 l2 r2 : Nat)
    (h1 : FirstAt (TrimSpace content) openFeedback l1)
    (h2 : FirstAt (TrimSpace content) closeFeedback r1)
    (h3 : FirstAt (TrimSpace content) openScore l2)
    (h4 : FirstAt (TrimSpace content) closeScore r2) :
    (parseReply intSize content : Outcome E) =
      if l1 + 11 ≤ r1 ∧ l2 + 8 ≤ r2 then
        match Atoi intSize (between (TrimSpace content) (l2 + 8) r2) with
        | (_, some err) => .returned none (some (.num err))
        | (iscore, none) =>
          .returned (some ⟨iscore, between (TrimSpace content) (l1 + 11) r1⟩) none
      else .panicked .sliceBounds := by
  have b2 := FirstAt_bound h2 (by decide)
  have b4 := FirstAt_bound h4 (by decide)
  have e1 := (Index_eq_iff _ _ _).2 h1
  have e2 := (Index_eq_iff _ _ _).2 h2
  have e3 := (Index_eq_iff _ _ _).2 h3
  have e4 := (Index_eq_iff _ _ _).2 h4
  unfold parseReply
  simp only [e1, e2, e3, e4, openFeedback_length, openScore_length]
  have hne : ¬ ((l1 : Int) = -1 ∨ (r1 : Int) = -1 ∨ (l2 : Int) = -1 ∨ (r2 : Int) = -1) := by
    omega
  rw [if_neg hne]
  have c1 : ((l1 : Int) + ((11 : Nat) : Int)) = ((l1 + 11 : Nat) : Int) := by push_cast; rfl
  have c2 : ((l2 : Int) + ((8 : Nat) : Int)) = ((l2 + 8 : Nat) : Int) := by push_cast; rfl
  rw [c1, c2, slice_nat _ _ _ (by omega), slice_nat _ _ _ (by omega)]
  by_cases ha : l1 + 11 ≤ r1
  · by_cases hb : l2 + 8 ≤ r2
    · simp only [ha, hb, and_self, if_true]
    · simp only [ha, hb, and_false, if_true, if_false]
  · simp only [ha, false_and, if_false]

/-- Every reply either lacks a marker in its trimmed text, and is a format
error, or has the four markers at first positions `l1`, `r1`, `l2`, `r2`. -/
theorem parseReply_cases {E : Type} (intSize : Nat) (content : Str) :
    ((¬ openFeedback <:+: TrimSpace content ∨ ¬ closeFeedback <:+: TrimSpace content ∨
        ¬ openScore <:+: TrimSpace content ∨ ¬ closeScore <:+: TrimSpace content) ∧
      (parseReply intSize content : Outcome E) = .returned none (some invalidResponseFormat)) ∨
    ∃ l1 r1 l2 r2 : Nat,
      FirstAt (TrimSpace content) openFeedback l1 ∧ FirstAt (TrimSpace content) closeFeedback r1 ∧
      FirstAt (TrimSpace content) openScore l2 ∧ FirstAt (TrimSpace content) closeScore r2 := by
  by_cases hm : Index (TrimSpace content) openFeedback = -1 ∨
      Index (TrimSpace content) closeFeedback = -1 ∨
      Index (TrimSpace content) openScore = -1 ∨ Index (TrimSpace content) closeScore = -1
  · left
    refine ⟨by simpa only [Index_eq_neg_one] using hm, ?_⟩
    unfold parseReply
    simp only [hm, if_true]
  · right
    simp only [not_or] at hm
    obtain ⟨m1, m2, m3, m4⟩ := hm
    rcases Index_cases (TrimSpace content) openFeedback with e | ⟨l1, _, f1⟩
    · exact absurd e m1
    rcases Index_cases (TrimSpace content) closeFeedback with e | ⟨r1, _, f2⟩
    · exact absurd e m2
    rcases Index_cases (TrimSpace content) openScore with e | ⟨l2, _, f3⟩
    · exact absurd e m3
    rcases Index_cases (TrimSpace content) closeScore with e | ⟨r2, _, f4⟩
    · exact absurd e m4
    exact ⟨l1, r1, l2, r2, f1, f2, f3, f4⟩

/-- With the four markers found, the outcome is never the format error; it is
an Evaluation or a conversion error when both slices are in bounds, and a panic
of the slice expression otherwise. -/
theorem parseReply_markers_present {E : Type} (intSize : Nat) (content : Str)
    (l1 r1 l2 r2 : Nat)
    (h1 : FirstAt (TrimSpace content) openFeedback l1)
    (h2 : FirstAt (TrimSpace content) closeFeedback r1)
    (h3 : FirstAt (TrimSpace content) openScore l2)
    (h4 : FirstAt (TrimSpace content) closeScore r2) :
    (parseReply intSize content : Outcome E) ≠ .returned none (some invalidResponseFormat) ∧
    (l1 + 11 ≤ r1 ∧ l2 + 8 ≤ r2 →
      (∃ iscore : Int, (parseReply intSize content : Outcome E) =
        .returned (some ⟨iscore, between (TrimSpace content) (l1 + 11) r1⟩) none) ∨
      ∃ err : NumError, (parseReply intSize content : Outcome E) =
        .returned none (some (.num err))) ∧
    (¬ (l1 + 11 ≤ r1 ∧ l2 + 8 ≤ r2) →
      (parseReply intSize content : Outcome E) = .panicked .sliceBounds) := by
  rw [parseReply_found intSize content l1 r1 l2 r2 h1 h2 h3 h4]
  by_cases hin : l1 + 11 ≤ r1 ∧ l2 + 8 ≤ r2
  · rw [if_pos hin]
    rcases Atoi intSize (between (TrimSpace content) (l2 + 8) r2) with ⟨v, _ | err⟩
    · exact ⟨by simp, fun _ => Or.inl ⟨v, rfl⟩, fun h => absurd hin h⟩
    · exact ⟨by simp [invalidResponseFormat], fun _ => Or.inr ⟨err, rfl⟩, fun h => absurd hin h⟩
  · rw [if_neg hin]
    exact ⟨by simp, fun h => absurd h hin, fun _ => rfl⟩

theorem FirstAt_of_occurs {s sub : Str} (h : sub <:+: s) : ∃ k : Nat, FirstAt s sub k := by
  rcases Index_cases s sub with e | ⟨k, _, hk⟩
  · exact absurd h ((Index_eq_neg_one s sub).1 e)
  · exact ⟨k, hk⟩

theorem occurs_of_FirstAt {s sub : Str} {k : Nat} (h : FirstAt s sub k) : sub <:+: s :=
  h.1.isInfix.trans (List.drop_suffix k s).isInfix

/-- Every run ends in one of three ways: an SDK call failed, or the response
had no choice, or the content of the first choice was parsed. -/
theorem ScoreResponse_cases {W E M : Type} (intSize : Nat) (cl : Client W E M)
    (input output : Str) (w : W) :
    (∃ e : E, (ScoreResponse intSize cl input output w).outcome =
      .returned none (some (.sdk e))) ∨
    (ScoreResponse intSize cl input output w).outcome = .panicked .indexOutOfRange ∨
    ∃ content : Str, FirstChoiceContent cl input output w content ∧
      (ScoreResponse intSize cl input output w).outcome = parseReply intSize content := by
  have hs := Sprintf_promptFmt input output
  rcases h1 : cl.GetModel modelName w with ⟨e | model, w1⟩
  · left
    refine ⟨e, ?_⟩
    unfold ScoreResponse
    simp only [h1]
  · rcases h2 : cl.CreateInput model
        (requestMessages (promptHead ++ input ++ promptMiddle ++ output ++ promptTail)) w1
      with ⟨e | in0, w2⟩
    · left
      refine ⟨e, ?_⟩
      unfold requestMessages at h2
      unfold ScoreResponse
      generalize Sprintf promptFmt [input, output] = rendered at hs ⊢
      subst hs
      simp only [h1, h2]
    · rcases h3 : cl.Invoke model { in0 with Temperature := 1 / 2, MaxTokens := 500 } w2
        with ⟨e | out, w3⟩
      · left
        refine ⟨e, ?_⟩
        unfold requestMessages at h2
        unfold ScoreResponse
        generalize Sprintf promptFmt [input, output] = rendered at hs ⊢
        subst hs
        simp only [h1, h2, h3]
      · right
        have hr : Replies cl input output w out := ⟨model, w1, _, in0, w2, w3, h1, hs, h2, h3⟩
        have ho := ScoreResponse_of_replies intSize cl input output w out hr
        cases hc : out.Choices with
        | nil => left; rw [ho, hc]
        | cons choice others =>
          right
          exact ⟨choice.Message.Content, ⟨out, choice, others, hr, hc, rfl⟩, by rw [ho, hc]⟩

theorem Atoi_error_cases (intSize : Nat) (s : Str) :
    (Atoi intSize s).2 = none ∨
      ∃ kind : NumErrKind, (Atoi intSize s).2 = some ⟨"Atoi".toList, s, kind⟩ := by
  unfold Atoi
  split
  · cases s with
    | nil => exact Or.inr ⟨_, rfl⟩
    | cons c rest =>
      simp only []
      generalize (if (c == '-') = true ∨ (c == '+') = true then rest else c :: rest) = s1
      by_cases h1 : s1.length < 1
      · rw [if_pos h1]; exact Or.inr ⟨_, rfl⟩
      · rw [if_neg h1]
        cases atoiFast s1 0 with
        | none => exact Or.inr ⟨_, rfl⟩
        | some n => exact Or.inl rfl
  · simp only []
    cases (ParseInt intSize s).2 with
    | none => exact Or.inl rfl
    | some k => exact Or.inr ⟨_, rfl⟩

theorem Atoi_error_shape (intSize : Nat) (s : Str) (err : NumError)
    (h : (Atoi intSize s).2 = some err) : err.Func = "Atoi".toList ∧ err.Num = s := by
  rcases Atoi_error_cases intSize s with e | ⟨kind, e⟩
  · rw [e] at h; cases h
  · rw [e] at h
    cases h
    exact ⟨rfl, rfl⟩

/-! ## The two well-formed replies -/

theorem NoOcc_of_head (c : Char) (sub X Y : Str) (hk : sub[0]? = some c) (hX : c ∉ X) :
    NoOcc sub X Y :=
  NoOcc_of_char c 0 sub X Y hk hX (by simp)

theorem not_mem_take_append (c : Char) (k : Nat) (P Z : Str) (hP : c ∉ P.take k)
    (hk : k ≤ P.length) : c ∉ (P ++ Z).take k := by
  rw [List.take_append_of_le_length hk]
  exact hP

theorem NoOcc_of_next (c : Char) (k : Nat) (sub X P Z : Str) (hk : sub[k]? = some c)
    (hX : c ∉ X) (hP : c ∉ P.take k) (hlen : k ≤ P.length) : NoOcc sub X (P ++ Z) :=
  NoOcc_of_char c k sub X (P ++ Z) hk hX (not_mem_take_append c k P Z hP hlen)

theorem NoOcc_of_next_var (c : Char) (sub X d P Z : Str) (hk : sub[1]? = some c)
    (hX : c ∉ X) (hd : c ∉ d) (hP : c ∉ P.take 1) (hlen : 1 ≤ P.length) :
    NoOcc sub X (d ++ (P ++ Z)) := by
  apply NoOcc_of_char c 1 sub X _ hk hX
  cases d with
  | nil => exact not_mem_take_append c 1 P Z hP hlen
  | cons x d =>
    intro h
    simp only [List.cons_append, List.take_succ_cons, List.take_zero, List.mem_singleton] at h
    exact hd (by simp [h])

theorem Index_feedbackFirst_openFeedback (f d : Str) :
    Index (feedbackFirstReply f d) openFeedback = 0 :=
  indexFrom_found openFeedback _ 0

theorem Index_feedbackFirst_closeFeedback (f d : Str) (hf : ¬ closeFeedback <:+: f)
    (hs : ¬ "</feedback>".toList <+: f) :
    Index (feedbackFirstReply f d) closeFeedback = ((11 + f.length : Nat) : Int) := by
  have hR : feedbackFirstReply f d = "<feedback>".toList ++ (['\n'] ++ (f ++ (closeFeedback ++
      ("\n<score>\n".toList ++ (d ++ "\n</score>".toList))))) := rfl
  unfold Index
  rw [hR, indexFrom_skip, indexFrom_skip, indexFrom_skip, indexFrom_found]
  · simp
  · exact NoOcc_of_absent '\n' "</feedback>".toList f _ (by decide) rfl hf
  · exact NoOcc_before '\n' "</feedback>".toList f _ (by decide) rfl hs
  · exact NoOcc_of_head '\n' _ _ _ rfl (by decide)

theorem Index_feedbackFirst_openScore (f d : Str) (hf : ¬ openScore <:+: f)
    (hs : ¬ "<score>".toList <:+ f) :
    Index (feedbackFirstReply f d) openScore = ((24 + f.length : Nat) : Int) := by
  have hR : feedbackFirstReply f d = ['<'] ++ ("feedback>\n".toList ++ (f ++ (['\n'] ++ (['<'] ++
      ("/feedback>\n".toList ++ (openScore ++ (d ++ "\n</score>".toList))))))) := rfl
  unfold Index
  rw [hR, indexFrom_skip, indexFrom_skip, indexFrom_skip, indexFrom_skip, indexFrom_skip,
    indexFrom_skip, indexFrom_found]
  · simp
    omega
  · exact NoOcc_of_head '<' _ _ _ rfl (by decide)
  · exact NoOcc_of_next 's' 1 _ _ _ _ rfl (by decide) (by decide) (by decide)
  · exact NoOcc_of_head '<' _ _ _ rfl (by decide)
  · exact NoOcc_of_no_ending '\n' "<score>".toList f _ (by decide) rfl hf hs
  · exact NoOcc_of_head '<' _ _ _ rfl (by decide)
  · exact NoOcc_of_next 's' 1 _ _ _ _ rfl (by decide) (by decide) (by decide)

theorem Index_feedbackFirst_closeScore (f d : Str) (hf : ¬ closeScore <:+: f)
    (hs : ¬ "</score>".toList <+: f) (hd1 : '<' ∉ d) (hd2 : '\n' ∉ d) :
    Index (feedbackFirstReply f d) closeScore = ((32 + f.length + d.length : Nat) : Int) := by
  have hR : feedbackFirstReply f d = "<feedback>".toList ++ (['\n'] ++ (f ++ (['\n'] ++
      ("</feedback>".toList ++ (['\n'] ++ ("<score>".toList ++ (['\n'] ++ (d ++
        (closeScore ++ []))))))))) := rfl
  unfold Index
  rw [hR, indexFrom_skip, indexFrom_skip, indexFrom_skip, indexFrom_skip, indexFrom_skip,
    indexFrom_skip, indexFrom_skip, indexFrom_skip, indexFrom_skip, indexFrom_found]
  · simp
    omega
  · exact NoOcc_of_head '\n' _ _ _ rfl hd2
  · exact NoOcc_of_next_var '<' _ _ d closeScore [] rfl (by decide) hd1 (by decide) (by decide)
  · exact NoOcc_of_head '\n' _ _ _ rfl (by decide)
  · exact NoOcc_of_next '/' 2 _ _ _ _ rfl (by decide) (by decide) (by decide)
  · exact NoOcc_of_head '\n' _ _ _ rfl (by decide)
  · exact NoOcc_of_next 's' 3 _ _ _ _ rfl (by decide) (by decide) (by decide)
  · exact NoOcc_of_absent '\n' "</score>".toList f _ (by decide) rfl hf
  · exact NoOcc_before '\n' "</score>".toList f _ (by decide) rfl hs
  · exact NoOcc_of_head '\n' _ _ _ rfl (by decide)

theorem TrimSpace_append_ends (A M Z : Str) (hA : A.head?.map isSpace = some false)
    (hZ : Z.getLast?.map isSpace = some false) : TrimSpace (A ++ (M ++ Z)) = A ++ (M ++ Z) := by
  cases A with
  | nil => simp at hA
  | cons a A =>
    rcases List.eq_nil_or_concat Z with rfl | ⟨Z1, b, rfl⟩
    · simp at hZ
    · simp only [List.head?_cons, Option.map_some', Option.some.injEq] at hA
      simp at hZ
      have := TrimSpace_of_ends a b (A ++ (M ++ Z1)) hA hZ
      simpa [List.append_assoc] using this

theorem parseReply_feedbackFirst {E : Type} (intSize : Nat) (f d : Str)
    (hf1 : ¬ closeFeedback <:+: f) (hf2 : ¬ openScore <:+: f) (hf3 : ¬ closeScore <:+: f)
    (hs1 : ¬ "</feedback>".toList <+: f) (hs2 : ¬ "</score>".toList <+: f)
    (hs3 : ¬ "<score>".toList <:+ f) (hd1 : '<' ∉ d) (hd2 : '\n' ∉ d) :
    (parseReply intSize (feedbackFirstReply f d) : Outcome E) =
      match Atoi intSize d with
      | (_, some err) => .returned none (some (.num err))
      | (iscore, none) => .returned (some ⟨iscore, f⟩) none := by
  have hT : TrimSpace (feedbackFirstReply f d) = feedbackFirstReply f d := by
    have e : feedbackFirstReply f d = "<feedback>\n".toList ++
        ((f ++ ("\n</feedback>\n<score>\n".toList ++ d)) ++ "\n</score>".toList) := by
      simp [feedbackFirstReply]
    rw [e]
    exact TrimSpace_append_ends _ _ _ rfl rfl
  have h1 : FirstAt (TrimSpace (feedbackFirstReply f d)) openFeedback 0 := by
    rw [hT]; exact (Index_eq_iff _ _ _).1 (Index_feedbackFirst_openFeedback f d)
  have h2 : FirstAt (TrimSpace (feedbackFirstReply f d)) closeFeedback (11 + f.length) := by
    rw [hT]; exact (Index_eq_iff _ _ _).1 (Index_feedbackFirst_closeFeedback f d hf1 hs1)
  have h3 : FirstAt (TrimSpace (feedbackFirstReply f d)) openScore (24 + f.length) := by
    rw [hT]; exact (Index_eq_iff _ _ _).1 (Index_feedbackFirst_openScore f d hf2 hs3)
  have h4 : FirstAt (TrimSpace (feedbackFirstReply f d)) closeScore
      (32 + f.length + d.length) := by
    rw [hT]; exact (Index_eq_iff _ _ _).1 (Index_feedbackFirst_closeScore f d hf3 hs2 hd1 hd2)
  rw [parseReply_found intSize _ _ _ _ _ h1 h2 h3 h4, if_pos ⟨by omega, by omega⟩, hT]
  have b1 : between (feedbackFirstReply f d) (0 + 11) (11 + f.length) = f := by
    have hlen : ("<feedback>\n".toList).length = 0 + 11 := rfl
    unfold between feedbackFirstReply
    rw [List.drop_left' hlen, show 11 + f.length - (0 + 11) = f.length by omega,
      List.take_left' rfl]
  have b2 : between (feedbackFirstReply f d) (24 + f.length + 8) (32 + f.length + d.length)
      = d := by
    have e : feedbackFirstReply f d = ("<feedback>\n".toList ++
        (f ++ "\n</feedback>\n<score>\n".toList)) ++ (d ++ "\n</score>".toList) := by
      simp [feedbackFirstReply]
    unfold between
    rw [e, List.drop_left' (by simp; omega),
      show 32 + f.length + d.length - (24 + f.length + 8) = d.length by omega,
      List.take_left' rfl]
  rw [b1, b2]

theorem Index_scoreFirst_openScore (f d : Str) : Index (scoreFirstReply f d) openScore = 0 :=
  indexFrom_found openScore _ 0

theorem Index_scoreFirst_closeScore (f d : Str) (hd1 : '<' ∉ d) (hd2 : '\n' ∉ d) :
    Index (scoreFirstReply f d) closeScore = ((8 + d.length : Nat) : Int) := by
  have hR : scoreFirstReply f d = "<score>".toList ++ (['\n'] ++ (d ++ (closeScore ++
      ("\n<feedback>\n".toList ++ (f ++ "\n</feedback>".toList))))) := rfl
  unfold Index
  rw [hR, indexFrom_skip, indexFrom_skip, indexFrom_skip, indexFrom_found]
  · simp
  · exact NoOcc_of_head '\n' _ _ _ rfl hd2
  · exact NoOcc_of_next_var '<' _ _ d closeScore _ rfl (by decide) hd1 (by decide) (by decide)
  · exact NoOcc_of_head '\n' _ _ _ rfl (by decide)

theorem Index_scoreFirst_openFeedback (f d : Str) (hd1 : '<' ∉ d) :
    Index (scoreFirstReply f d) openFeedback = ((18 + d.length : Nat) : Int) := by
  have hR : scoreFirstReply f d = ['<'] ++ ("score>\n".toList ++ (d ++ (['\n'] ++ (['<'] ++
      ("/score>\n".toList ++ (openFeedback ++ (f ++ "\n</feedback>".toList))))))) := rfl
  unfold Index
  rw [hR, indexFrom_skip, indexFrom_skip, indexFrom_skip, indexFrom_skip, indexFrom_skip,
    indexFrom_skip, indexFrom_found]
  · simp
    omega
  · exact NoOcc_of_head '<' _ _ _ rfl (by decide)
  · exact NoOcc_of_next 'f' 1 _ _ _ _ rfl (by decide) (by decide) (by decide)
  · exact NoOcc_of_head '<' _ _ _ rfl (by decide)
  · exact NoOcc_of_head '<' _ _ _ rfl hd1
  · exact NoOcc_of_head '<' _ _ _ rfl (by decide)
  · exact NoOcc_of_next 'f' 1 _ _ _ _ rfl (by decide) (by decide) (by decide)

theorem Index_scoreFirst_closeFeedback (f d : Str) (hf : '<' ∉ f) (hd1 : '<' ∉ d)
    (hd2 : '\n' ∉ d) :
    Index (scoreFirstReply f d) closeFeedback = ((29 + d.length + f.length : Nat) : Int) := by
  have hR : scoreFirstReply f d = "<score>".toList ++ (['\n'] ++ (d ++ (['\n'] ++
      ("</score>".toList ++ (['\n'] ++ ("<feedback>".toList ++ (['\n'] ++ (f ++
        (closeFeedback ++ []))))))))) := rfl
  unfold Index
  rw [hR, indexFrom_skip, indexFrom_skip, indexFrom_skip, indexFrom_skip, indexFrom_skip,
    indexFrom_skip, indexFrom_skip, indexFrom_skip, indexFrom_skip, indexFrom_found]
  · simp
    omega
  · exact NoOcc_of_next '<' 1 _ _ _ _ rfl hf (by decide) (by decide)
  · exact NoOcc_of_next_var '<' _ _ f closeFeedback [] rfl (by decide) hf (by decide)
      (by decide)
  · exact NoOcc_of_head '\n' _ _ _ rfl (by decide)
  · exact NoOcc_of_next '/' 2 _ _ _ _ rfl (by decide) (by decide) (by decide)
  · exact NoOcc_of_head '\n' _ _ _ rfl (by decide)
  · exact NoOcc_of_next 'f' 3 _ _ _ _ rfl (by decide) (by decide) (by decide)
  · exact NoOcc_of_head '\n' _ _ _ rfl hd2
  · exact NoOcc_of_next_var '<' _ _ d ['\n'] _ rfl (by decide) hd1 (by decide) (by decide)
  · exact NoOcc_of_head '\n' _ _ _ rfl (by decide)

theorem parseReply_scoreFirst {E : Type} (intSize : Nat) (f d : Str) (hf : '<' ∉ f)
    (hd1 : '<' ∉ d) (hd2 : '\n' ∉ d) :
    (parseReply intSize (scoreFirstReply f d) : Outcome E) =
      match Atoi intSize d with
      | (_, some err) => .returned none (some (.num err))
      | (iscore, none) => .returned (some ⟨iscore, f⟩) none := by
  have hT : TrimSpace (scoreFirstReply f d) = scoreFirstReply f d := by
    have e : scoreFirstReply f d = "<score>\n".toList ++
        ((d ++ ("\n</score>\n<feedback>\n".toList ++ f)) ++ "\n</feedback>".toList) := by
      simp [scoreFirstReply]
    rw [e]
    exact TrimSpace_append_ends _ _ _ rfl rfl
  have h1 : FirstAt (TrimSpace (scoreFirstReply f d)) openFeedback (18 + d.length) := by
    rw [hT]; exact (Index_eq_iff _ _ _).1 (Index_scoreFirst_openFeedback f d hd1)
  have h2 : FirstAt (TrimSpace (scoreFirstReply f d)) closeFeedback
      (29 + d.length + f.length) := by
    rw [hT]; exact (Index_eq_iff _ _ _).1 (Index_scoreFirst_closeFeedback f d hf hd1 hd2)
  have h3 : FirstAt (TrimSpace (scoreFirstReply f d)) openScore 0 := by
    rw [hT]; exact (Index_eq_iff _ _ _).1 (Index_scoreFirst_openScore f d)
  have h4 : FirstAt (TrimSpace (scoreFirstReply f d)) closeScore (8 + d.length) := by
    rw [hT]; exact (Index_eq_iff _ _ _).1 (Index_scoreFirst_closeScore f d hd1 hd2)
  rw [parseReply_found intSize _ _ _ _ _ h1 h2 h3 h4, if_pos ⟨by omega, by omega⟩, hT]
  have b1 : between (scoreFirstReply f d) (0 + 8) (8 + d.length) = d := by
    have hlen : ("<score>\n".toList).length = 0 + 8 := rfl
    unfold between scoreFirstReply
    rw [List.drop_left' hlen, show 8 + d.length - (0 + 8) = d.length by omega,
      List.take_left' rfl]
  have b2 : between (scoreFirstReply f d) (18 + d.length + 11) (29 + d.length + f.length)
      = f := by
    have e : scoreFirstReply f d = ("<score>\n".toList ++
        (d ++ "\n</score>\n<feedback>\n".toList)) ++ (f ++ "\n</feedback>".toList) := by
      simp [scoreFirstReply]
    unfold between
    rw [e, List.drop_left' (by simp; omega),
      show 29 + d.length + f.length - (18 + d.length + 11) = f.length by omega,
      List.take_left' rfl]
  rw [b1, b2]

theorem Itoa_no_marker_char (n : Int) : '<' ∉ Itoa n ∧ '\n' ∉ Itoa n := by
  constructor <;> intro h <;> rcases Itoa_chars n _ h with h1 | h1 <;> revert h1 <;> decide

theorem not_infix_of_char (c : Char) (m f : Str) (hm : c ∈ m) (hf : c ∉ f) : ¬ m <:+: f :=
  fun h => hf (h.subset hm)

/-! ## The claims -/

/-- C1, as amended: for a feedback text `f` in which none of the four markers
occurs, that does not begin with `</feedback>` or `</score>` and does not end
with `<score>`, and an integer `n` in the range of `int` with decimal rendering
`d`, the reply `"<feedback>\n" + f + "\n</feedback>\n<score>\n" + d + "\n</score>"`
makes `ScoreResponse` return a `nil` error and the Evaluation with Reasoning
`f` and Score `n`. -/
theorem C1_round_trip_on_well_formed_replies {W E M : Type} (intSize : Nat)
    (hsize : intSize = 32 ∨ intSize = 64) (cl : Client W E M) (input output : Str) (w : W)
    (f : Str) (n : Int)
    (hlo : -(2 ^ (intSize - 1) : Int) ≤ n) (hhi : n < (2 ^ (intSize - 1) : Int))
    (_hm1 : ¬ openFeedback <:+: f) (hm2 : ¬ closeFeedback <:+: f)
    (hm3 : ¬ openScore <:+: f) (hm4 : ¬ closeScore <:+: f)
    (hs1 : ¬ "</feedback>".toList <+: f) (hs2 : ¬ "</score>".toList <+: f)
    (hs3 : ¬ "<score>".toList <:+ f)
    (hreply : FirstChoiceContent cl input output w (feedbackFirstReply f (Itoa n))) :
    (ScoreResponse intSize cl input output w).outcome = .returned (some ⟨n, f⟩) none := by
  rw [ScoreResponse_of_content intSize cl input output w _ hreply,
    parseReply_feedbackFirst intSize f (Itoa n) hm2 hm3 hm4 hs1 hs2 hs3
      (Itoa_no_marker_char n).1 (Itoa_no_marker_char n).2,
    Atoi_Itoa intSize hsize n hlo hhi]

/-- Witness of C1, scenario 1 of the specification: `f` is `Good answer.` and
`n` is 4. -/
theorem C1_round_trip_on_well_formed_replies_witness :
    feedbackFirstReply "Good answer.".toList (Itoa 4) =
      "<feedback>\nGood answer.\n</feedback>\n<score>\n4\n</score>".toList ∧
    (ScoreResponse 64 (answering (feedbackFirstReply "Good answer.".toList (Itoa 4)))
      "2+2".toList "4".toList 0).outcome = .returned (some ⟨4, "Good answer.".toList⟩) none :=
  ⟨by decide,
    C1_round_trip_on_well_formed_replies 64 (Or.inr rfl) _ "2+2".toList "4".toList 0
      "Good answer.".toList 4 (by decide) (by decide) (by decide) (by decide) (by decide)
      (by decide) (by decide) (by decide) (by decide) (answering_replies _ _ _ _)⟩

/-- C1 as stated fails: none of the four markers occurs in the feedback texts
`<score>`, `</feedback>` and `</score>`, and 4 is in the range of `int`, yet
with the first text the reply is answered by a conversion error (the score text
found is `</feedback>\n<score>\n4`), not by the Evaluation of the claim, and
with the other two by a panic of the slice expression. -/
theorem C1_counterexample :
    (¬ openFeedback <:+: "<score>".toList ∧ ¬ closeFeedback <:+: "<score>".toList ∧
      ¬ openScore <:+: "<score>".toList ∧ ¬ closeScore <:+: "<score>".toList) ∧
    (ScoreResponse 64 (answering (feedbackFirstReply "<score>".toList (Itoa 4)))
      "2+2".toList "4".toList 0).outcome =
      .returned none (some (.num
        ⟨"Atoi".toList, "</feedback>\n<score>\n4".toList, .ErrSyntax⟩)) ∧
    (ScoreResponse 64 (answering (feedbackFirstReply "<score>".toList (Itoa 4)))
      "2+2".toList "4".toList 0).outcome ≠ .returned (some ⟨4, "<score>".toList⟩) none ∧
    (¬ openFeedback <:+: "</feedback>".toList ∧ ¬ closeFeedback <:+: "</feedback>".toList ∧
      ¬ openScore <:+: "</feedback>".toList ∧ ¬ closeScore <:+: "</feedback>".toList) ∧
    (ScoreResponse 64 (answering (feedbackFirstReply "</feedback>".toList (Itoa 4)))
      "2+2".toList "4".toList 0).outcome = .panicked .sliceBounds ∧
    (¬ openFeedback <:+: "</score>".toList ∧ ¬ closeFeedback <:+: "</score>".toList ∧
      ¬ openScore <:+: "</score>".toList ∧ ¬ closeScore <:+: "</score>".toList) ∧
    (ScoreResponse 64 (answering (feedbackFirstReply "</score>".toList (Itoa 4)))
      "2+2".toList "4".toList 0).outcome = .panicked .sliceBounds := by
  have r1 : (ScoreResponse 64 (answering (feedbackFirstReply "<score>".toList (Itoa 4)))
      "2+2".toList "4".toList 0).outcome =
      .returned none (some (.num
        ⟨"Atoi".toList, "</feedback>\n<score>\n4".toList, .ErrSyntax⟩)) :=
    (ScoreResponse_of_content 64 _ _ _ 0 _ (answering_replies _ "2+2".toList "4".toList 0)).trans
      (by decide)
  have r2 : (ScoreResponse 64 (answering (feedbackFirstReply "</feedback>".toList (Itoa 4)))
      "2+2".toList "4".toList 0).outcome = .panicked .sliceBounds :=
    (ScoreResponse_of_content 64 _ _ _ 0 _ (answering_replies _ "2+2".toList "4".toList 0)).trans
      (by decide)
  have r3 : (ScoreResponse 64 (answering (feedbackFirstReply "</score>".toList (Itoa 4)))
      "2+2".toList "4".toList 0).outcome = .panicked .sliceBounds :=
    (ScoreResponse_of_content 64 _ _ _ 0 _ (answering_replies _ "2+2".toList "4".toList 0)).trans
      (by decide)
  refine ⟨by decide, r1, ?_, by decide, r2, by decide, r3⟩
  rw [r1]
  decide

/-- C2: when one of the four markers does not occur in the reply, `ScoreResponse`
returns a `nil` Evaluation and the error `invalid response format`; the marker
is then also absent from the trimmed reply, and no slice or conversion is
reached (no panic, no conversion error). -/
theorem C2_missing_marker_is_format_error {W E M : Type} (intSize : Nat) (cl : Client W E M)
    (input output : Str) (w : W) (content : Str)
    (hreply : FirstChoiceContent cl input output w content)
    (hmissing : ¬ openFeedback <:+: content ∨ ¬ closeFeedback <:+: content ∨
      ¬ openScore <:+: content ∨ ¬ closeScore <:+: content) :
    (¬ openFeedback <:+: TrimSpace content ∨ ¬ closeFeedback <:+: TrimSpace content ∨
      ¬ openScore <:+: TrimSpace content ∨ ¬ closeScore <:+: TrimSpace content) ∧
    (ScoreResponse intSize cl input output w).outcome =
      .returned none (some (.errorf "invalid response format".toList)) := by
  have htrim : ¬ openFeedback <:+: TrimSpace content ∨ ¬ closeFeedback <:+: TrimSpace content ∨
      ¬ openScore <:+: TrimSpace content ∨ ¬ closeScore <:+: TrimSpace content := by
    rcases hmissing with h | h | h | h
    · exact Or.inl fun e => h (e.trans (TrimSpace_within content))
    · exact Or.inr (Or.inl fun e => h (e.trans (TrimSpace_within content)))
    · exact Or.inr (Or.inr (Or.inl fun e => h (e.trans (TrimSpace_within content))))
    · exact Or.inr (Or.inr (Or.inr fun e => h (e.trans (TrimSpace_within content))))
  refine ⟨htrim, ?_⟩
  rw [ScoreResponse_of_content intSize cl input output w content hreply]
  unfold parseReply
  simp only [← Index_eq_neg_one] at htrim
  simp only [htrim, if_true]
  rfl

/-- Witness of C2, the reply `<score>\n3\n</score>` of the specification. -/
theorem C2_missing_marker_is_format_error_witness :
    ¬ openFeedback <:+: "<score>\n3\n</score>".toList ∧
    (ScoreResponse 64 (answering "<score>\n3\n</score>".toList) "2+2".toList "4".toList 0).outcome
      = .returned none (some (.errorf "invalid response format".toList)) :=
  ⟨by decide,
    (C2_missing_marker_is_format_error 64 (answering "<score>\n3\n</score>".toList)
      "2+2".toList "4".toList 0 "<score>\n3\n</score>".toList (answering_replies _ _ _ _)
      (Or.inl (by decide))).2⟩

/-- C3: when the trimmed reply has the four markers, both slices are in
bounds and the text between the first `<score>\n` and the first `\n</score>`
is not a valid base-10 integer text, `ScoreResponse` returns a `nil`
Evaluation and the conversion error of `strconv.Atoi` on that text, which is
not the format error.  The texts `4.5`, `4/5`, `four`, the empty text, ` 4`
and `4 ` are not valid integer texts. -/
theorem C3_non_integer_score_is_parse_error {W E M : Type} (intSize : Nat)
    (hsize : intSize = 32 ∨ intSize = 64) (cl : Client W E M) (input output : Str) (w : W)
    (content : Str) (l1 r1 l2 r2 : Nat)
    (hreply : FirstChoiceContent cl input output w content)
    (h1 : FirstAt (TrimSpace content) openFeedback l1)
    (h2 : FirstAt (TrimSpace content) closeFeedback r1)
    (h3 : FirstAt (TrimSpace content) openScore l2)
    (h4 : FirstAt (TrimSpace content) closeScore r2)
    (hin1 : l1 + 11 ≤ r1) (hin2 : l2 + 8 ≤ r2)
    (hbad : ¬ IsIntText intSize (between (TrimSpace content) (l2 + 8) r2)) :
    (∃ kind : NumErrKind,
      (ScoreResponse intSize cl input output w).outcome =
        .returned none (some (.num
          ⟨"Atoi".toList, between (TrimSpace content) (l2 + 8) r2, kind⟩))) ∧
    (ScoreResponse intSize cl input output w).outcome ≠
      .returned none (some invalidResponseFormat) ∧
    ∀ s ∈ ["4.5".toList, "4/5".toList, "four".toList, [], " 4".toList, "4 ".toList],
      ¬ IsIntText intSize s := by
  have hA := Atoi_spec intSize hsize (between (TrimSpace content) (l2 + 8) r2)
  have hout : ∃ kind : NumErrKind,
      (ScoreResponse intSize cl input output w).outcome =
        .returned none (some (.num
          ⟨"Atoi".toList, between (TrimSpace content) (l2 + 8) r2, kind⟩)) := by
    rw [ScoreResponse_of_content intSize cl input output w content hreply,
      parseReply_found intSize content l1 r1 l2 r2 h1 h2 h3 h4, if_pos ⟨hin1, hin2⟩]
    rcases hr : Atoi intSize (between (TrimSpace content) (l2 + 8) r2) with ⟨v, _ | err⟩
    · rw [hr] at hA
      exact absurd (hA.1.1 rfl) hbad
    · have hshape := Atoi_error_shape intSize _ err (by rw [hr])
      refine ⟨err.Err, ?_⟩
      simp only []
      rw [← hshape.1, ← hshape.2]
  refine ⟨hout, ?_, ?_⟩
  · obtain ⟨kind, hk⟩ := hout
    rw [hk]
    simp [invalidResponseFormat]
  · rcases hsize with rfl | rfl <;> decide

/-- Witness of C3, scenario 3 of the specification: the score text `high`. -/
theorem C3_non_integer_score_is_parse_error_witness :
    ¬ IsIntText 64 (between
      (TrimSpace "<feedback>\nOK\n</feedback>\n<score>\nhigh\n</score>".toList) (26 + 8) 38) ∧
    ∃ kind : NumErrKind,
      (ScoreResponse 64 (answering "<feedback>\nOK\n</feedback>\n<score>\nhigh\n</score>".toList)
        "2+2".toList "4".toList 0).outcome =
        .returned none (some (.num ⟨"Atoi".toList, between
          (TrimSpace "<feedback>\nOK\n</feedback>\n<score>\nhigh\n</score>".toList) (26 + 8) 38,
          kind⟩)) :=
  ⟨by decide,
    (C3_non_integer_score_is_parse_error 64 (Or.inr rfl)
      (answering "<feedback>\nOK\n</feedback>\n<score>\nhigh\n</score>".toList)
      "2+2".toList "4".toList 0 _ 0 13 26 38 (answering_replies _ _ _ _)
      ((Index_eq_iff _ _ _).1 (by decide)) ((Index_eq_iff _ _ _).1 (by decide))
      ((Index_eq_iff _ _ _).1 (by decide)) ((Index_eq_iff _ _ _).1 (by decide))
      (by decide) (by decide) (by decide)).1⟩

/-- C4: an Evaluation is returned only with a `nil` error, for a reply whose
trimmed text `t` has the four markers, first at `l1`, `r1`, `l2`, `r2`; its
Reasoning is the substring of `t` from `l1 + 11` up to `r1` and its Score is
the value of the substring from `l2 + 8` up to `r2`, a valid base-10 integer
text.  A non-nil error comes with a `nil` Evaluation. -/
theorem C4_evaluation_only_for_parsed_reply {W E M : Type} (intSize : Nat)
    (hsize : intSize = 32 ∨ intSize = 64) (cl : Client W E M) (input output : Str) (w : W) :
    (∀ (e : Evaluation) (err : Option (GoError E)),
      (ScoreResponse intSize cl input output w).outcome = .returned (some e) err →
      err = none ∧
      ∃ (content : Str) (l1 r1 l2 r2 : Nat),
        FirstChoiceContent cl input output w content ∧
        FirstAt (TrimSpace content) openFeedback l1 ∧
        FirstAt (TrimSpace content) closeFeedback r1 ∧
        FirstAt (TrimSpace content) openScore l2 ∧
        FirstAt (TrimSpace content) closeScore r2 ∧
        l1 + 11 ≤ r1 ∧ l2 + 8 ≤ r2 ∧
        e.Reasoning = between (TrimSpace content) (l1 + 11) r1 ∧
        IsIntText intSize (between (TrimSpace content) (l2 + 8) r2) ∧
        e.Score = intTextValue (between (TrimSpace content) (l2 + 8) r2)) ∧
    (∀ (ev : Option Evaluation) (err : GoError E),
      (ScoreResponse intSize cl input output w).outcome = .returned ev (some err) →
      ev = none) := by
  have key : ∀ (ev : Option Evaluation) (err : Option (GoError E)),
      (ScoreResponse intSize cl input output w).outcome = .returned ev err →
      (ev = none ∧ err ≠ none) ∨
      (err = none ∧ ∃ (e : Evaluation) (content : Str) (l1 r1 l2 r2 : Nat), ev = some e ∧
        FirstChoiceContent cl input output w content ∧
        FirstAt (TrimSpace content) openFeedback l1 ∧
        FirstAt (TrimSpace content) closeFeedback r1 ∧
        FirstAt (TrimSpace content) openScore l2 ∧
        FirstAt (TrimSpace content) closeScore r2 ∧
        l1 + 11 ≤ r1 ∧ l2 + 8 ≤ r2 ∧
        e.Reasoning = between (TrimSpace content) (l1 + 11) r1 ∧
        IsIntText intSize (between (TrimSpace content) (l2 + 8) r2) ∧
        e.Score = intTextValue (between (TrimSpace content) (l2 + 8) r2)) := by
    intro ev err hret
    rcases ScoreResponse_cases intSize cl input output w with ⟨e, he⟩ | hp | ⟨content, hc, hp⟩
    · rw [he] at hret
      simp only [Outcome.returned.injEq] at hret
      left
      exact ⟨hret.1.symm, by rw [← hret.2]; simp⟩
    · rw [hp] at hret
      cases hret
    · rw [hp] at hret
      rcases parseReply_cases (E := E) intSize content with ⟨_, hf⟩ | ⟨l1, r1, l2, r2, f1, f2, f3, f4⟩
      · rw [hf] at hret
        simp only [Outcome.returned.injEq] at hret
        left
        exact ⟨hret.1.symm, by rw [← hret.2]; simp⟩
      · rw [parseReply_found intSize content l1 r1 l2 r2 f1 f2 f3 f4] at hret
        by_cases hin : l1 + 11 ≤ r1 ∧ l2 + 8 ≤ r2
        · rw [if_pos hin] at hret
          have hA := Atoi_spec intSize hsize (between (TrimSpace content) (l2 + 8) r2)
          rcases hr : Atoi intSize (between (TrimSpace content) (l2 + 8) r2) with ⟨v, _ | nerr⟩
          · rw [hr] at hret hA
            simp only [Outcome.returned.injEq] at hret
            right
            refine ⟨hret.2.symm, ⟨v, _⟩, content, l1, r1, l2, r2, hret.1.symm, hc, f1, f2, f3, f4,
              hin.1, hin.2, rfl, hA.1.1 rfl, hA.2 rfl⟩
          · rw [hr] at hret
            simp only [Outcome.returned.injEq] at hret
            left
            exact ⟨hret.1.symm, by rw [← hret.2]; simp⟩
        · rw [if_neg hin] at hret
          cases hret
  constructor
  · intro e err hret
    rcases key (some e) err hret with ⟨h, _⟩ | ⟨h, e2, content, l1, r1, l2, r2, he, rest⟩
    · cases h
    · cases he
      exact ⟨h, content, l1, r1, l2, r2, rest⟩
  · intro ev err hret
    rcases key ev (some err) hret with ⟨h, _⟩ | ⟨h, _⟩
    · exact h
    · cases h

/-- Witness of C4, scenario 1 of the specification: the Evaluation returned
comes with a `nil` error and is the one read off the trimmed reply. -/
theorem C4_evaluation_only_for_parsed_reply_witness :
    (ScoreResponse 64
        (answering "<feedback>\nGood answer.\n</feedback>\n<score>\n4\n</score>".toList)
        "2+2".toList "4".toList 0).outcome =
      .returned (some ⟨4, "Good answer.".toList⟩) none ∧
    ((none : Option (GoError Str)) = none ∧
      ∃ (content : Str) (l1 r1 l2 r2 : Nat),
        FirstChoiceContent
          (answering "<feedback>\nGood answer.\n</feedback>\n<score>\n4\n</score>".toList)
          "2+2".toList "4".toList 0 content ∧
        FirstAt (TrimSpace content) openFeedback l1 ∧
        FirstAt (TrimSpace content) closeFeedback r1 ∧
        FirstAt (TrimSpace content) openScore l2 ∧
        FirstAt (TrimSpace content) closeScore r2 ∧
        l1 + 11 ≤ r1 ∧ l2 + 8 ≤ r2 ∧
        "Good answer.".toList = between (TrimSpace content) (l1 + 11) r1 ∧
        IsIntText 64 (between (TrimSpace content) (l2 + 8) r2) ∧
        (4 : Int) = intTextValue (between (TrimSpace content) (l2 + 8) r2)) :=
  have hrun : (ScoreResponse 64
        (answering "<feedback>\nGood answer.\n</feedback>\n<score>\n4\n</score>".toList)
        "2+2".toList "4".toList 0).outcome =
      .returned (some ⟨4, "Good answer.".toList⟩) none :=
    (ScoreResponse_of_content 64 _ _ _ 0 _ (answering_replies _ "2+2".toList "4".toList 0)).trans
      (by decide)
  ⟨hrun, (C4_evaluation_only_for_parsed_reply 64 (Or.inr rfl)
    (answering "<feedback>\nGood answer.\n</feedback>\n<score>\n4\n</score>".toList)
    "2+2".toList "4".toList 0).1 _ _ hrun⟩

/-- C5, the failing inputs: the trimmed reply has the four markers, the closing
feedback marker overlapping its opening marker in the first reply and standing
before it in the second, and `ScoreResponse` panics on the slice expression. -/
theorem C5_markers_present_yet_panic :
    (openFeedback <:+: TrimSpace "<feedback>\n</feedback>\n<score>\n4\n</score>".toList ∧
      closeFeedback <:+: TrimSpace "<feedback>\n</feedback>\n<score>\n4\n</score>".toList ∧
      openScore <:+: TrimSpace "<feedback>\n</feedback>\n<score>\n4\n</score>".toList ∧
      closeScore <:+: TrimSpace "<feedback>\n</feedback>\n<score>\n4\n</score>".toList ∧
      (ScoreResponse 64 (answering "<feedback>\n</feedback>\n<score>\n4\n</score>".toList)
        "2+2".toList "4".toList 0).outcome = .panicked .sliceBounds) ∧
    (openFeedback <:+: TrimSpace "<score>\n4\n</score>\n</feedback>\n<feedback>\nGood".toList ∧
      closeFeedback <:+: TrimSpace "<score>\n4\n</score>\n</feedback>\n<feedback>\nGood".toList ∧
      openScore <:+: TrimSpace "<score>\n4\n</score>\n</feedback>\n<feedback>\nGood".toList ∧
      closeScore <:+: TrimSpace "<score>\n4\n</score>\n</feedback>\n<feedback>\nGood".toList ∧
      (ScoreResponse 64
        (answering "<score>\n4\n</score>\n</feedback>\n<feedback>\nGood".toList)
        "2+2".toList "4".toList 0).outcome = .panicked .sliceBounds) :=
  ⟨⟨by decide, by decide, by decide, by decide,
    (ScoreResponse_of_content 64 _ _ _ 0 _ (answering_replies _ "2+2".toList "4".toList 0)).trans
      (by decide)⟩,
   ⟨by decide, by decide, by decide, by decide,
    (ScoreResponse_of_content 64 _ _ _ 0 _ (answering_replies _ "2+2".toList "4".toList 0)).trans
      (by decide)⟩⟩

/-- C6: white space (spaces, tabs, line feeds, carriage returns) put before and
after the reply does not change the outcome of `ScoreResponse`. -/
theorem C6_surrounding_whitespace_ignored {W E M W2 M2 : Type} (intSize : Nat)
    (cl : Client W E M) (cl2 : Client W2 E M2) (input output input2 output2 : Str) (w : W)
    (w2 : W2) (s pre post : Str)
    (hpre : ∀ c ∈ pre, c = ' ' ∨ c = '\t' ∨ c = '\n' ∨ c = '\r')
    (hpost : ∀ c ∈ post, c = ' ' ∨ c = '\t' ∨ c = '\n' ∨ c = '\r')
    (h : FirstChoiceContent cl input output w (pre ++ s ++ post))
    (h2 : FirstChoiceContent cl2 input2 output2 w2 s) :
    (ScoreResponse intSize cl input output w).outcome =
      (ScoreResponse intSize cl2 input2 output2 w2).outcome := by
  have hsp : ∀ c : Char, c = ' ' ∨ c = '\t' ∨ c = '\n' ∨ c = '\r' → isSpace c = true := by
    rintro c (rfl | rfl | rfl | rfl) <;> rfl
  rw [ScoreResponse_of_content intSize cl input output w _ h,
    ScoreResponse_of_content intSize cl2 input2 output2 w2 _ h2]
  unfold parseReply
  rw [TrimSpace_pad pre s post (fun c hc => hsp c (hpre c hc)) (fun c hc => hsp c (hpost c hc))]

/-- Witness of C6: the reply of scenario 1 wrapped in blank lines gives the
outcome of scenario 1, score 4 with the reasoning `Good answer.`. -/
theorem C6_surrounding_whitespace_ignored_witness :
    (ScoreResponse 64 (answering ("\n\n".toList ++
        "<feedback>\nGood answer.\n</feedback>\n<score>\n4\n</score>".toList ++ "\n\n".toList))
        "2+2".toList "4".toList 0).outcome =
      (ScoreResponse 64
        (answering "<feedback>\nGood answer.\n</feedback>\n<score>\n4\n</score>".toList)
        "2+2".toList "4".toList 0).outcome ∧
    (ScoreResponse 64 (answering
        "\n\n<feedback>\nGood answer.\n</feedback>\n<score>\n4\n</score>\n\n".toList)
        "2+2".toList "4".toList 0).outcome =
      .returned (some ⟨4, "Good answer.".toList⟩) none :=
  ⟨C6_surrounding_whitespace_ignored 64 _ _ "2+2".toList "4".toList "2+2".toList "4".toList 0 0
      "<feedback>\nGood answer.\n</feedback>\n<score>\n4\n</score>".toList "\n\n".toList
      "\n\n".toList (by decide) (by decide) (answering_replies _ _ _ _)
      (answering_replies _ _ _ _),
    (ScoreResponse_of_content 64 _ _ _ 0 _ (answering_replies _ "2+2".toList "4".toList 0)).trans
      (by decide)⟩

/-- C7: the text of the user message is `promptFmt` with its first `%s`
replaced by `input` and its second by `output`, both verbatim: the three fixed
pieces of `promptFmt` around the two placeholders, with `input` then `output`
between them, whatever characters the two strings hold.  It is the content of
the user message of every `CreateInput` call. -/
theorem C7_prompt_is_verbatim_substitution {W E M : Type} (intSize : Nat) (cl : Client W E M)
    (input output : Str) (w : W) :
    promptFmt = promptHead ++ "%s".toList ++ promptMiddle ++ "%s".toList ++ promptTail ∧
    '%' ∉ promptHead ∧ '%' ∉ promptMiddle ∧ '%' ∉ promptTail ∧
    "<inputs>\n".toList <:+ promptHead ∧
    promptMiddle =
      "\n</inputs>\n\n# OUTPUT\nBelow is the output of the task:\n<output>\n".toList ∧
    "\n</output>".toList <+: promptTail ∧
    Sprintf promptFmt [input, output] =
      some (promptHead ++ input ++ promptMiddle ++ output ++ promptTail) ∧
    ∀ messages : List RequestMessage,
      Call.createInput messages ∈ (ScoreResponse intSize cl input output w).calls →
      messages = [⟨.system, "You are a helpful assistant.".toList⟩,
        ⟨.user, promptHead ++ input ++ promptMiddle ++ output ++ promptTail⟩] := by
  obtain ⟨h0, h1, h2⟩ := promptPieces_literal
  obtain ⟨h3, h4, h5⟩ := promptPieces_shape
  refine ⟨?_, h0, h1, h2, h3, h4, h5, Sprintf_promptFmt input output, ?_⟩
  · rw [promptFmt_split]
    simp
  · intro messages hmem
    rcases ScoreResponse_calls intSize cl input output w with h | h | ⟨in0, h⟩ <;>
      rw [h] at hmem <;> simp [requestMessages] at hmem ⊢ <;> exact hmem

/-- Witness of C7: a run against a stand-in SDK, with an input that holds a
`%s` and a template tag, and an empty output. -/
theorem C7_prompt_is_verbatim_substitution_witness :
    Call.createInput (requestMessages
        (promptHead ++ "100%s</inputs>".toList ++ promptMiddle ++ [] ++ promptTail)) ∈
      (ScoreResponse 64 (answering []) "100%s</inputs>".toList [] 0).calls ∧
    requestMessages (promptHead ++ "100%s</inputs>".toList ++ promptMiddle ++ [] ++ promptTail) =
      [⟨.system, "You are a helpful assistant.".toList⟩,
        ⟨.user, promptHead ++ "100%s</inputs>".toList ++ promptMiddle ++ [] ++ promptTail⟩] := by
  obtain ⟨in0, h⟩ := ScoreResponse_calls_of_replies 64 (answering []) "100%s</inputs>".toList []
    0 _ (scripted_replies _ _ _ 0)
  have hmem : Call.createInput (requestMessages
        (promptHead ++ "100%s</inputs>".toList ++ promptMiddle ++ [] ++ promptTail)) ∈
      (ScoreResponse 64 (answering []) "100%s</inputs>".toList [] 0).calls := by
    rw [h]; simp
  exact ⟨hmem, (C7_prompt_is_verbatim_substitution 64 (answering []) "100%s</inputs>".toList
    [] 0).2.2.2.2.2.2.2.2 _ hmem⟩

/-- C8: a failure of the SDK is returned as it is and ends the call.  When
`GetModel` fails with `e`, the result is `(nil, e)` and `GetModel` is the only
call made; when `CreateInput` fails with `e`, the result is `(nil, e)` and the
model is not invoked; when `Invoke` fails with `e`, the result is `(nil, e)`.
In every run the model is invoked at most once. -/
theorem C8_collaborator_failures_propagate {W E M : Type} (intSize : Nat) (cl : Client W E M)
    (input output : Str) (w : W) :
    (∀ (e : E) (w1 : W), cl.GetModel modelName w = (.error e, w1) →
      (ScoreResponse intSize cl input output w).outcome = .returned none (some (.sdk e)) ∧
      (ScoreResponse intSize cl input output w).calls = [.getModel modelName]) ∧
    (∀ (model : M) (w1 : W) (e : E) (w2 : W), cl.GetModel modelName w = (.ok model, w1) →
      cl.CreateInput model
        (requestMessages (promptHead ++ input ++ promptMiddle ++ output ++ promptTail)) w1 =
          (.error e, w2) →
      (ScoreResponse intSize cl input output w).outcome = .returned none (some (.sdk e)) ∧
      (ScoreResponse intSize cl input output w).calls = [.getModel modelName, .createInput
        (requestMessages (promptHead ++ input ++ promptMiddle ++ output ++ promptTail))]) ∧
    (∀ (model : M) (w1 : W) (in0 : ChatModelInput) (w2 : W) (e : E) (w3 : W),
      cl.GetModel modelName w = (.ok model, w1) →
      cl.CreateInput model
        (requestMessages (promptHead ++ input ++ promptMiddle ++ output ++ promptTail)) w1 =
          (.ok in0, w2) →
      cl.Invoke model { in0 with Temperature := 1 / 2, MaxTokens := 500 } w2 = (.error e, w3) →
      (ScoreResponse intSize cl input output w).outcome = .returned none (some (.sdk e)) ∧
      (ScoreResponse intSize cl input output w).calls = [.getModel modelName, .createInput
        (requestMessages (promptHead ++ input ++ promptMiddle ++ output ++ promptTail)),
        .invoke { in0 with Temperature := 1 / 2, MaxTokens := 500 }]) ∧
    (ScoreResponse intSize cl input output w).calls.countP Call.isInvoke ≤ 1 := by
  have hs := Sprintf_promptFmt input output
  refine ⟨?_, ?_, ?_, ?_⟩
  · intro e w1 h1
    unfold ScoreResponse
    simp only [h1, and_self]
  · intro model w1 e w2 h1 h2
    unfold requestMessages at h2 ⊢
    unfold ScoreResponse
    generalize Sprintf promptFmt [input, output] = rendered at hs ⊢
    subst hs
    simp only [h1, h2, and_self]
  · intro model w1 in0 w2 e w3 h1 h2 h3
    unfold requestMessages at h2 ⊢
    unfold ScoreResponse
    generalize Sprintf promptFmt [input, output] = rendered at hs ⊢
    subst hs
    simp only [h1, h2, h3, and_self]
  · rcases ScoreResponse_calls intSize cl input output w with h | h | ⟨in0, h⟩ <;>
      rw [h] <;> simp [List.countP_cons, Call.isInvoke]

/-- Witness of C8: three stand-in SDKs, failing at each of the three calls. -/
theorem C8_collaborator_failures_propagate_witness :
    ((ScoreResponse 64 (scripted (.error "no such model".toList) (.ok ()) (.ok ⟨[]⟩))
        "2+2".toList "4".toList 0).outcome
      = .returned none (some (.sdk "no such model".toList))) ∧
    ((ScoreResponse 64 (scripted (.ok ()) (.error "bad input".toList) (.ok ⟨[]⟩))
        "2+2".toList "4".toList 0).outcome
      = .returned none (some (.sdk "bad input".toList))) ∧
    ((ScoreResponse 64 (scripted (.ok ()) (.ok ()) (.error "timeout".toList))
        "2+2".toList "4".toList 0).outcome
      = .returned none (some (.sdk "timeout".toList))) :=
  ⟨((C8_collaborator_failures_propagate 64
      (scripted (.error "no such model".toList) (.ok ()) (.ok ⟨[]⟩))
      "2+2".toList "4".toList 0).1 "no such model".toList 1 rfl).1,
   ((C8_collaborator_failures_propagate 64
      (scripted (.ok ()) (.error "bad input".toList) (.ok ⟨[]⟩))
      "2+2".toList "4".toList 0).2.1 () 1 "bad input".toList 2 rfl rfl).1,
   ((C8_collaborator_failures_propagate 64
      (scripted (.ok ()) (.ok ()) (.error "timeout".toList))
      "2+2".toList "4".toList 0).2.2.1 () 1 ⟨requestMessages _, 1, 0⟩ 2 "timeout".toList 3
      rfl rfl rfl).1⟩

/-- C9: for a feedback text `f` without the character `<` and an integer `n`
in the range of `int` with decimal rendering `d`, the score-first reply
`"<score>\n" + d + "\n</score>\n<feedback>\n" + f + "\n</feedback>"` and the
feedback-first reply `"<feedback>\n" + f + "\n</feedback>\n<score>\n" + d + "\n</score>"`
both make `ScoreResponse` return the Evaluation with Score `n` and Reasoning
`f`, with a `nil` error. -/
theorem C9_block_order_not_enforced {W E M W2 E2 M2 : Type} (intSize : Nat)
    (hsize : intSize = 32 ∨ intSize = 64) (cl : Client W E M) (cl2 : Client W2 E2 M2)
    (input output input2 output2 : Str) (w : W) (w2 : W2) (f : Str) (n : Int)
    (hlo : -(2 ^ (intSize - 1) : Int) ≤ n) (hhi : n < (2 ^ (intSize - 1) : Int))
    (hf : '<' ∉ f)
    (hreply : FirstChoiceContent cl input output w (scoreFirstReply f (Itoa n)))
    (hreply2 : FirstChoiceContent cl2 input2 output2 w2 (feedbackFirstReply f (Itoa n))) :
    (ScoreResponse intSize cl input output w).outcome = .returned (some ⟨n, f⟩) none ∧
    (ScoreResponse intSize cl2 input2 output2 w2).outcome = .returned (some ⟨n, f⟩) none := by
  constructor
  · rw [ScoreResponse_of_content intSize cl input output w _ hreply,
      parseReply_scoreFirst intSize f (Itoa n) hf (Itoa_no_marker_char n).1
        (Itoa_no_marker_char n).2,
      Atoi_Itoa intSize hsize n hlo hhi]
  · rw [ScoreResponse_of_content intSize cl2 input2 output2 w2 _ hreply2,
      parseReply_feedbackFirst intSize f (Itoa n)
        (not_infix_of_char '<' _ f (by decide) hf) (not_infix_of_char '<' _ f (by decide) hf)
        (not_infix_of_char '<' _ f (by decide) hf)
        (fun h => not_infix_of_char '<' _ f (by decide) hf h.isInfix)
        (fun h => not_infix_of_char '<' _ f (by decide) hf h.isInfix)
        (fun h => not_infix_of_char '<' _ f (by decide) hf h.isInfix)
        (Itoa_no_marker_char n).1 (Itoa_no_marker_char n).2,
      Atoi_Itoa intSize hsize n hlo hhi]

/-- Witness of C9: the feedback `Fine.\nNo issue.` and the score 5, on a
platform with a 32-bit `int`. -/
theorem C9_block_order_not_enforced_witness :
    scoreFirstReply "Fine.\nNo issue.".toList (Itoa 5) =
      "<score>\n5\n</score>\n<feedback>\nFine.\nNo issue.\n</feedback>".toList ∧
    (ScoreResponse 32 (answering (scoreFirstReply "Fine.\nNo issue.".toList (Itoa 5)))
        "2+2".toList "4".toList 0).outcome =
      .returned (some ⟨5, "Fine.\nNo issue.".toList⟩) none ∧
    (ScoreResponse 32 (answering (feedbackFirstReply "Fine.\nNo issue.".toList (Itoa 5)))
        "2+2".toList "4".toList 0).outcome =
      .returned (some ⟨5, "Fine.\nNo issue.".toList⟩) none :=
  ⟨by decide,
    C9_block_order_not_enforced 32 (Or.inl rfl) _ _ "2+2".toList "4".toList "2+2".toList
      "4".toList 0 0 "Fine.\nNo issue.".toList 5 (by decide) (by decide) (by decide)
      (answering_replies _ _ _ _) (answering_replies _ _ _ _)⟩

/-- C10: after a successful invocation, when the response has at least one
choice the read of `Choices[0]` is in bounds (no index panic) and the outcome
is the parse of that choice's content, so that two responses whose first
choices have the same content give the same outcome; when the response has no
choice, nothing guards the read and the call panics with an index out of range. -/
theorem C10_first_choice_only {W E M W2 M2 : Type} (intSize : Nat) (cl : Client W E M)
    (cl2 : Client W2 E M2) (input output input2 output2 : Str) (w : W) (w2 : W2)
    (out out2 : ChatModelOutput) (h : Replies cl input output w out)
    (h2 : Replies cl2 input2 output2 w2 out2) :
    (∀ (choice : Choice) (others : List Choice), out.Choices = choice :: others →
      (ScoreResponse intSize cl input output w).outcome ≠ .panicked .indexOutOfRange ∧
      (ScoreResponse intSize cl input output w).outcome =
        parseReply intSize choice.Message.Content ∧
      ∀ (choice2 : Choice) (others2 : List Choice), out2.Choices = choice2 :: others2 →
        choice2.Message.Content = choice.Message.Content →
        (ScoreResponse intSize cl2 input2 output2 w2).outcome =
          (ScoreResponse intSize cl input output w).outcome) ∧
    (out.Choices = [] →
      (ScoreResponse intSize cl input output w).outcome = .panicked .indexOutOfRange) := by
  have e1 := ScoreResponse_of_replies intSize cl input output w out h
  have e2 := ScoreResponse_of_replies intSize cl2 input2 output2 w2 out2 h2
  constructor
  · intro choice others hc
    rw [hc] at e1
    refine ⟨?_, e1, ?_⟩
    · rw [e1]; exact parseReply_ne_indexOutOfRange intSize _
    · intro choice2 others2 hc2 hsame
      rw [hc2] at e2
      rw [e1, e2]
      simp only [hsame]
  · intro hc
    rw [hc] at e1
    exact e1

/-- Witness of C10: a response with two choices and a response with one choice,
the first choices having the same content, give the same outcome. -/
theorem C10_first_choice_only_witness :
    (ScoreResponse 64 (scripted (.ok ()) (.ok ()) (.ok (singleChoice "<score>\n3".toList)))
        "q".toList "a".toList 7).outcome =
      (ScoreResponse 64 (scripted (.ok ()) (.ok ()) (.ok ⟨[
          ⟨0, "stop".toList, ⟨"assistant".toList, "<score>\n3".toList⟩⟩,
          ⟨1, "length".toList, ⟨"assistant".toList, "other".toList⟩⟩]⟩))
        "2+2".toList "4".toList 0).outcome :=
  ((C10_first_choice_only 64 _ _ "2+2".toList "4".toList "q".toList "a".toList 0 7 _ _
    (scripted_replies ⟨[⟨0, "stop".toList, ⟨"assistant".toList, "<score>\n3".toList⟩⟩,
      ⟨1, "length".toList, ⟨"assistant".toList, "other".toList⟩⟩]⟩ "2+2".toList "4".toList 0)
    (scripted_replies (singleChoice "<score>\n3".toList) "q".toList "a".toList 7)).1
      _ _ rfl).2.2 _ _ rfl rfl

end OffsiteEvals
